import Mathlib

/-!
# Encantia dev pages: profile completeness gate and date utilities

A shallow embedding of `src/pages/infow.js` (`calcularEdad`, `formatDate`), of
`src/components/UserArea.js` (`fetchUserData`, `handleChange`, `handleSubmit`,
the greeting and the three-way render of the component), of the editing
handlers of `src/pages/gestionar/usuarios.js` (`validateForm`, `startEdit`,
`cancelEdit`, `handleChange`, `saveChanges`), and of the create, save, edit
and cancel handlers of `src/pages/gestionar/libros.js`, `musicas.js` and
`eventos.js`, followed by the statements that are proved about them.

Conventions of the embedding.

* A valid JavaScript `Date` is represented by the three local-time fields the
  code reads from it (`getFullYear`, `getMonth`, `getDate`); an invalid `Date`
  (`isNaN(date)`) is `none`.
* `new Date(string)` is a service of the JavaScript host, not of this
  repository: it is the field `parseDate` of `Host`.  A date-only string
  `YYYY-MM-DD` denotes midnight UTC of that calendar day, so the local-time
  fields of the parsed `Date` depend on the zone of the host: they are the
  calendar day itself in the UTC zone (`utcHost`) and the day before it in a
  zone behind UTC (`limaHost`).
* The current date `new Date()` is an explicit argument (`hoy`).
* The Supabase client is a collaborator: `Backend σ` gives, for a backend in
  state `σ`, the answer of each call and the next state.  Every call is also
  appended to a log, so that "is called", "is called once" and "is not
  called" are statements about the log.
* React state is one record (`State`); the setters are record updates applied
  in program order.
-/

namespace Encantia

/-! ## Dates -/

/-- Local-time fields of a valid JavaScript `Date`: `getFullYear()`,
`getMonth()` (January is `0`) and `getDate()` (day of the month). -/
structure JsDate where
  fullYear : Int
  month : Nat
  date : Nat
  deriving DecidableEq, Repr

/-- The JavaScript host. `parseDate s` is `new Date(s)` for a string `s`:
`none` when the result is an invalid date, otherwise its local-time fields,
which are those of the instant the string denotes seen in the zone of the
host; for a date-only string they need not be the calendar day written in the
string. In every host `new Date("")` is an invalid date. -/
structure Host where
  parseDate : String → Option JsDate
  parseDate_empty : parseDate "" = none

/-- A value that is `null`, `undefined` or a string (a nullable text column
read from the store, or a form field). -/
inductive JsValue where
  | null
  | undefined
  | str (s : String)
  deriving DecidableEq, Repr

/-- `calcularEdad(fechaNacimiento)` of `src/pages/infow.js`, with the current
date `hoy = new Date()` as an argument. `none` is the JavaScript `null`. -/
def calcularEdad (host : Host) (hoy : JsDate) (fechaNacimiento : JsValue) : Option Int :=
  match fechaNacimiento with
  | .null => none
  | .undefined => none
  | .str s =>
    -- if (!fechaNacimiento) return null;
    if s = "" then none
    else
      -- const fechaNac = new Date(fechaNacimiento); if (isNaN(fechaNac)) return null;
      match host.parseDate s with
      | none => none
      | some fechaNac =>
        let edad : Int := hoy.fullYear - fechaNac.fullYear
        let m : Int := (hoy.month : Int) - (fechaNac.month : Int)
        if m < 0 ∨ (m = 0 ∧ hoy.date < fechaNac.date) then some (edad - 1)
        else some edad

/-! ## Collaborators of the component -/

/-- An error object: what Supabase returns in `error`, or what `throw new
Error(msg)` raises (then `code` is `undefined`, here `none`). -/
structure JsError where
  message : String
  code : Option String
  deriving DecidableEq, Repr

/-- The authenticated user; only `user.id` is read. -/
structure User where
  id : String
  deriving DecidableEq, Repr

/-- A row of table `profiles`. -/
structure Profile where
  user_id : String
  name : String
  avatar_url : Option String
  deriving DecidableEq, Repr

/-- The form of the component: `formData`. -/
structure FormData where
  nombresyapellidos : String
  fechadenacimiento : String
  nacionalidad : String
  uuid : String
  deriving DecidableEq, Repr

/-- A row of table `ownerinfo` as read back from the store: nullable text
columns, the optional stored age, and the owner identifier. -/
structure OwnerRow where
  nombresyapellidos : JsValue
  edad : Option Int
  fechadenacimiento : JsValue
  nacionalidad : JsValue
  uuid : String
  deriving DecidableEq, Repr

/-- Answer of `supabase.auth.getUser()`: `{ data: { user }, error }`. -/
structure AuthResp where
  user : Option User
  error : Option JsError
  deriving DecidableEq, Repr

/-- Answer of a `.single()` query: `{ data, error }`. -/
structure SingleResp (α : Type) where
  data : Option α
  error : Option JsError
  deriving DecidableEq, Repr

/-- The Supabase client seen from the component, for a backend whose state has
type `σ`: each call gives its answer and the next backend state. -/
structure Backend (σ : Type) where
  getUser : σ → AuthResp × σ
  selectProfile : String → σ → SingleResp Profile × σ
  selectOwnerinfo : String → σ → SingleResp OwnerRow × σ
  insertOwnerinfo : FormData → σ → Option JsError × σ
  signOut : σ → Option JsError × σ

/-- One observable call of the component on its collaborators. -/
inductive Call where
  | getUser
  | selectProfile (userId : String)
  | selectOwnerinfo (uuid : String)
  | insertOwnerinfo (row : FormData)
  | signOut
  | routerPush (url : String)
  deriving DecidableEq, Repr

/-- The backend state together with the log of the calls made so far. -/
structure World (σ : Type) where
  backend : σ
  calls : List Call
  deriving DecidableEq, Repr

/-- Runs `supabase.auth.getUser()` and logs it. -/
def World.getUser {σ : Type} (B : Backend σ) (w : World σ) : AuthResp × World σ :=
  ((B.getUser w.backend).1,
   { backend := (B.getUser w.backend).2, calls := w.calls ++ [Call.getUser] })

/-- Runs `from("profiles").select("*").eq("user_id", id).single()` and logs it. -/
def World.selectProfile {σ : Type} (B : Backend σ) (id : String) (w : World σ) :
    SingleResp Profile × World σ :=
  ((B.selectProfile id w.backend).1,
   { backend := (B.selectProfile id w.backend).2,
     calls := w.calls ++ [Call.selectProfile id] })

/-- Runs `from("ownerinfo").select("*").eq("uuid", id).single()` and logs it. -/
def World.selectOwnerinfo {σ : Type} (B : Backend σ) (id : String) (w : World σ) :
    SingleResp OwnerRow × World σ :=
  ((B.selectOwnerinfo id w.backend).1,
   { backend := (B.selectOwnerinfo id w.backend).2,
     calls := w.calls ++ [Call.selectOwnerinfo id] })

/-- Runs `from("ownerinfo").insert([row])` and logs it. -/
def World.insertOwnerinfo {σ : Type} (B : Backend σ) (row : FormData) (w : World σ) :
    Option JsError × World σ :=
  ((B.insertOwnerinfo row w.backend).1,
   { backend := (B.insertOwnerinfo row w.backend).2,
     calls := w.calls ++ [Call.insertOwnerinfo row] })

/-- Runs `supabase.auth.signOut()` and logs it. -/
def World.signOut {σ : Type} (B : Backend σ) (w : World σ) : Option JsError × World σ :=
  ((B.signOut w.backend).1,
   { backend := (B.signOut w.backend).2, calls := w.calls ++ [Call.signOut] })

/-- Logs `router.push(url)`. -/
def World.routerPush {σ : Type} (url : String) (w : World σ) : World σ :=
  { w with calls := w.calls ++ [Call.routerPush url] }

/-- Number of `insert` calls on `ownerinfo` in a log. -/
def insertCount (calls : List Call) : Nat :=
  (calls.filter fun c => match c with
    | .insertOwnerinfo _ => true
    | _ => false).length

/-- Number of `getUser` calls in a log; `fetchUserData` makes exactly one per
run and nothing else in the component calls `getUser`. -/
def getUserCount (calls : List Call) : Nat :=
  (calls.filter fun c => match c with
    | .getUser => true
    | _ => false).length

/-! ## `String.prototype.trim` -/

/-- White space and line terminators of ECMAScript, the characters `trim`
removes: TAB, LF, VT, FF, CR, SPACE, NBSP, the other space separators
(category Zs), LS, PS and the byte order mark. -/
def isJsWhitespace (c : Char) : Bool :=
  let n := c.toNat
  n == 0x09 || n == 0x0A || n == 0x0B || n == 0x0C || n == 0x0D || n == 0x20 ||
  n == 0xA0 || n == 0x1680 || (0x2000 ≤ n && n ≤ 0x200A) || n == 0x2028 ||
  n == 0x2029 || n == 0x202F || n == 0x205F || n == 0x3000 || n == 0xFEFF

/-- The function `trim` on the characters of a string. -/
def trimChars (cs : List Char) : List Char :=
  (((cs.dropWhile isJsWhitespace).reverse).dropWhile isJsWhitespace).reverse

/-- The method `s.trim()`. -/
def jsTrim (s : String) : String :=
  ⟨trimChars s.data⟩

/-- A string that is empty or made of white space only. -/
def isBlank (s : String) : Bool :=
  s.data.all isJsWhitespace

/-! ## The component of `src/components/UserArea.js` -/

/-- The React state of the component. -/
structure State where
  userProfile : Option Profile
  ownerInfo : Option OwnerRow
  loading : Bool
  formData : FormData
  isDropdownOpen : Bool
  greeting : String
  formError : String
  deriving DecidableEq, Repr

/-- The initial values given to `useState`. -/
def initialState : State where
  userProfile := none
  ownerInfo := none
  loading := true
  formData := { nombresyapellidos := "", fechadenacimiento := "", nacionalidad := "", uuid := "" }
  isDropdownOpen := false
  greeting := ""
  formError := ""

/-- The `catch` block of `fetchUserData` followed by its `finally` block. -/
def fetchFailed (s : State) (error : JsError) : State :=
  { s with formError := error.message, ownerInfo := none, userProfile := none, loading := false }

/-- `fetchUserData` of `src/components/UserArea.js`. -/
def fetchUserData {σ : Type} (B : Backend σ) (s : State) (w : World σ) : State × World σ :=
  -- setLoading(true); setFormError("");
  let s0 : State := { s with loading := true, formError := "" }
  let auth := w.getUser B
  match auth.1.error, auth.1.user with
  | none, some user =>
    let prof := auth.2.selectProfile B user.id
    match prof.1.error with
    | some profileError => (fetchFailed s0 profileError, prof.2)
    | none =>
      let s1 : State := { s0 with userProfile := prof.1.data }
      let own := prof.2.selectOwnerinfo B user.id
      -- if (ownerError && ownerError.code !== "PGRST116") throw ownerError;
      match own.1.error.filter (fun e => e.code ≠ some "PGRST116") with
      | some ownerError => (fetchFailed s1 ownerError, own.2)
      | none =>
        match own.1.data with
        | some ownerData => ({ s1 with ownerInfo := some ownerData, loading := false }, own.2)
        | none =>
          ({ s1 with ownerInfo := none,
                     formData := { s1.formData with uuid := user.id },
                     loading := false }, own.2)
  | _, _ =>
    -- if (userError || !user) throw new Error("No hay usuario logueado");
    (fetchFailed s0 { message := "No hay usuario logueado", code := none }, auth.2)

/-- The greeting chosen by the second effect from `new Date().getHours()`. -/
def greetingFor (hour : Nat) : String :=
  if 5 ≤ hour ∧ hour < 12 then "Buenos días"
  else if 12 ≤ hour ∧ hour < 20 then "Buenas tardes"
  else "Buenas noches"

/-- The two mount effects: `fetchUserData()` and the greeting. -/
def mount {σ : Type} (B : Backend σ) (hour : Nat) (w : World σ) : State × World σ :=
  ({ (fetchUserData B initialState w).1 with greeting := greetingFor hour },
   (fetchUserData B initialState w).2)

/-- The three inputs of the completion form, by their `name` attribute. -/
inductive Field where
  | nombresyapellidos
  | fechadenacimiento
  | nacionalidad
  deriving DecidableEq, Repr

/-- `handleChange`: `setFormData((f) => ({ ...f, [e.target.name]: e.target.value }))`. -/
def handleChange (name : Field) (value : String) (s : State) : State :=
  match name with
  | .nombresyapellidos => { s with formData := { s.formData with nombresyapellidos := value } }
  | .fechadenacimiento => { s with formData := { s.formData with fechadenacimiento := value } }
  | .nacionalidad => { s with formData := { s.formData with nacionalidad := value } }

/-- The comparison `x >= n` of JavaScript numbers, where `none` is `NaN`:
every comparison with `NaN` is false. -/
def jsGe (x : Option Int) (n : Int) : Bool :=
  match x with
  | some v => decide (n ≤ v)
  | none => false

/-- The message set when a required field is missing. -/
def missingFieldMessage : String := "Por favor completa todos los campos"

/-- The message set when the birth year is 2013 or later. -/
def ineligibleMessage : String := "No tienes la edad suficiente para ingresar a la página."

/-- `handleSubmit` of `src/components/UserArea.js`. -/
def handleSubmit {σ : Type} (B : Backend σ) (host : Host) (s : State) (w : World σ) :
    State × World σ :=
  -- setFormError("");
  let s0 : State := { s with formError := "" }
  let formData := s.formData
  if jsTrim formData.nombresyapellidos = "" ∨ formData.fechadenacimiento = "" ∨
      jsTrim formData.nacionalidad = "" then
    ({ s0 with formError := missingFieldMessage }, w)
  else
    -- const birthYear = new Date(formData.fechadenacimiento).getFullYear();
    let birthYear : Option Int := (host.parseDate formData.fechadenacimiento).map JsDate.fullYear
    if jsGe birthYear 2013 = true then
      ({ s0 with formError := ineligibleMessage }, w)
    else
      let ins := w.insertOwnerinfo B
        { nombresyapellidos := formData.nombresyapellidos,
          fechadenacimiento := formData.fechadenacimiento,
          nacionalidad := formData.nacionalidad,
          uuid := formData.uuid }
      match ins.1 with
      | some insertError => ({ s0 with formError := insertError.message }, ins.2)
      | none => fetchUserData B s0 ins.2

/-- `handleSignOut`: `router.push("/")` when `signOut` reports no error. -/
def handleSignOut {σ : Type} (B : Backend σ) (w : World σ) : World σ :=
  match (w.signOut B).1 with
  | none => (w.signOut B).2.routerPush "/"
  | some _ => (w.signOut B).2

/-- The `url` of the three navigation buttons. -/
def navButtons : List String := ["/", "/gestionar", "/infow"]

/-- What the component renders. -/
inductive View where
  | cargando
  | completionForm
  | contenido
  deriving DecidableEq, Repr

/-- The three-way `return` of the component: the loading text, the completion
form when `!ownerInfo`, the normal content otherwise. -/
def render (s : State) : View :=
  if s.loading = true then .cargando
  else if s.ownerInfo.isNone = true then .completionForm
  else .contenido

/-- The events the rendered elements can raise. -/
inductive Event where
  | change (name : Field) (value : String)
  | submit
  | navigate (url : String)
  | toggleDropdown
  | signOutClick
  deriving DecidableEq, Repr

/-- One event handled by the component. `none` when the element that raises
the event is not rendered in the current state: the inputs and the form exist
only in the completion form, the navigation buttons and the avatar only in the
normal content, the avatar only with a profile, and the sign-out entry only in
the open dropdown. -/
def step {σ : Type} (B : Backend σ) (host : Host) (e : Event) (c : State × World σ) :
    Option (State × World σ) :=
  match render c.1, e with
  | .completionForm, .change name value => some (handleChange name value c.1, c.2)
  | .completionForm, .submit => some (handleSubmit B host c.1 c.2)
  | .contenido, .navigate url =>
    if url ∈ navButtons then some (c.1, c.2.routerPush url) else none
  | .contenido, .toggleDropdown =>
    if c.1.userProfile.isSome = true then
      some ({ c.1 with isDropdownOpen := !c.1.isDropdownOpen }, c.2)
    else none
  | .contenido, .signOutClick =>
    if c.1.userProfile.isSome = true ∧ c.1.isDropdownOpen = true then
      some (c.1, handleSignOut B c.2)
    else none
  | _, _ => none

/-- A sequence of events handled one after the other; `none` as soon as one of
them cannot be raised. -/
def run {σ : Type} (B : Backend σ) (host : Host) :
    List Event → State × World σ → Option (State × World σ)
  | [], c => some c
  | e :: es, c => (step B host e c).bind (run B host es)

/-! ### Sample hosts

Used to run the definitions on concrete inputs: hosts which read the date-only
form `YYYY-MM-DD` as midnight UTC of that day; every other string, and a day
that does not exist in its month, is an invalid date for them (hosts differ on
such strings). `utcHost` has the UTC zone, `limaHost` a zone five hours behind
UTC. -/

/-- Value of a decimal digit. -/
def digitVal (c : Char) : Option Nat :=
  if c.isDigit then some (c.toNat - 48) else none

/-- Value of a string of decimal digits. -/
def digitsVal (cs : List Char) : Option Nat :=
  cs.foldl (fun acc c => acc.bind fun n => (digitVal c).map fun d => 10 * n + d) (some 0)

/-- Leap years of the Gregorian calendar. -/
def isLeapYear (y : Nat) : Bool :=
  (y % 4 == 0 && y % 100 != 0) || y % 400 == 0

/-- Number of days of month `m` (`1` to `12`) of year `y`. -/
def daysInMonth (y m : Nat) : Nat :=
  if m = 2 then (if isLeapYear y then 29 else 28)
  else if m = 4 ∨ m = 6 ∨ m = 9 ∨ m = 11 then 30
  else 31

/-- Reads `YYYY-MM-DD`: the calendar day written in the string, which is also
the UTC day of the instant `new Date` gives for it. -/
def isoDateOnly (cs : List Char) : Option JsDate :=
  match cs with
  | [y1, y2, y3, y4, s1, m1, m2, s2, d1, d2] =>
    if s1 = '-' ∧ s2 = '-' then
      match digitsVal [y1, y2, y3, y4], digitsVal [m1, m2], digitsVal [d1, d2] with
      | some y, some m, some d =>
        if 1 ≤ m ∧ m ≤ 12 ∧ 1 ≤ d ∧ d ≤ daysInMonth y m then
          some { fullYear := (y : Int), month := m - 1, date := d }
        else none
      | _, _, _ => none
    else none
  | _ => none

/-- The sample host: UTC zone, date-only ISO strings. -/
def utcHost : Host where
  parseDate := fun s => isoDateOnly s.data
  parseDate_empty := rfl

/-- The calendar day before `d`. -/
def previousDay (d : JsDate) : JsDate :=
  if 1 < d.date then { d with date := d.date - 1 }
  else if 0 < d.month then
    { d with month := d.month - 1, date := daysInMonth d.fullYear.toNat d.month }
  else { fullYear := d.fullYear - 1, month := 11, date := 31 }

/-- A sample host in a zone behind UTC (such as `America/Lima`, five hours
behind), reading date-only ISO strings: midnight UTC of the day written in the
string is the evening of the day before in local time, so `getFullYear`,
`getMonth` and `getDate` give the fields of the previous calendar day. -/
def limaHost : Host where
  parseDate := fun s => (isoDateOnly s.data).map previousDay
  parseDate_empty := rfl


/-! ### A sample backend

Used to run the component on concrete inputs: an in-memory store with a
session, the two tables, and read-after-write consistency. `.single()`
answers the error `PGRST116` unless exactly one row matches. -/

/-- State of the sample backend. -/
structure Store where
  session : Option User
  profiles : List Profile
  ownerinfo : List OwnerRow
  deriving DecidableEq, Repr

/-- The answer of `.single()` on the matching rows. -/
def single {α : Type} (rows : List α) : SingleResp α :=
  match rows with
  | [row] => { data := some row, error := none }
  | _ => { data := none,
           error := some { message := "JSON object requested, multiple (or no) rows returned",
                           code := some "PGRST116" } }

/-- The row stored for an inserted form. -/
def rowOfForm (f : FormData) : OwnerRow where
  nombresyapellidos := .str f.nombresyapellidos
  edad := none
  fechadenacimiento := .str f.fechadenacimiento
  nacionalidad := .str f.nacionalidad
  uuid := f.uuid

/-- The sample backend. -/
def memStore : Backend Store where
  getUser := fun b =>
    match b.session with
    | some u => ({ user := some u, error := none }, b)
    | none => ({ user := none, error := some { message := "Auth session missing!", code := none } }, b)
  selectProfile := fun id b => (single (b.profiles.filter fun p => p.user_id = id), b)
  selectOwnerinfo := fun id b => (single (b.ownerinfo.filter fun r => r.uuid = id), b)
  insertOwnerinfo := fun f b => (none, { b with ownerinfo := b.ownerinfo ++ [rowOfForm f] })
  signOut := fun b => (none, { b with session := none })

/-- A backend that refuses every insert with `err` and otherwise behaves as `B`. -/
def refusingInserts {σ : Type} (B : Backend σ) (err : JsError) : Backend σ :=
  { B with insertOwnerinfo := fun _ b => (some err, b) }

/-- Sample store: user `u1` is signed in and has a profile, no `ownerinfo` row. -/
def storeU1 : Store where
  session := some { id := "u1" }
  profiles := [{ user_id := "u1", name := "Ana", avatar_url := none }]
  ownerinfo := []

/-- The state the component is in after mounting on `storeU1` and typing the
three fields `nombre`, `fecha`, `nacionalidad`. -/
def filledForm (nombre fecha nacionalidad : String) : State where
  userProfile := some { user_id := "u1", name := "Ana", avatar_url := none }
  ownerInfo := none
  loading := false
  formData := { nombresyapellidos := nombre, fechadenacimiento := fecha,
                nacionalidad := nacionalidad, uuid := "u1" }
  isDropdownOpen := false
  greeting := "Buenas tardes"
  formError := ""

/-- A backend that behaves as `B` until `n` lookups on `ownerinfo` have been
served, `n` being the counter kept next to the state of `B`; every later
lookup on `ownerinfo` answers the error `err` (an outage of the lookup). -/
def outageAfter {σ : Type} (B : Backend σ) (err : JsError) : Backend (σ × Nat) where
  getUser := fun b => ((B.getUser b.1).1, ((B.getUser b.1).2, b.2))
  selectProfile := fun id b => ((B.selectProfile id b.1).1, ((B.selectProfile id b.1).2, b.2))
  selectOwnerinfo := fun id b =>
    match b.2 with
    | 0 => ({ data := none, error := some err }, b)
    | n + 1 => ((B.selectOwnerinfo id b.1).1, ((B.selectOwnerinfo id b.1).2, n))
  insertOwnerinfo := fun f b => ((B.insertOwnerinfo f b.1).1, ((B.insertOwnerinfo f b.1).2, b.2))
  signOut := fun b => ((B.signOut b.1).1, ((B.signOut b.1).2, b.2))

/-- Sample store in which user `u1` already has an `ownerinfo` row. -/
def storeU1Complete : Store :=
  { storeU1 with ownerinfo := [rowOfForm ⟨"Ana Pérez", "2010-05-01", "PE", "u1"⟩] }

/-- Sample store in which nobody is signed in. -/
def storeNoSession : Store where
  session := none
  profiles := [{ user_id := "u1", name := "Ana", avatar_url := none }]
  ownerinfo := []

/-- Sample store in which user `u1` is signed in but has no row in `profiles`. -/
def storeNoProfile : Store where
  session := some { id := "u1" }
  profiles := []
  ownerinfo := []

/-- A backend that behaves as `B` except that its first `n` lookups on
`ownerinfo` answer the error `err`, `n` being the counter kept next to the
state of `B` (an outage of the lookup that ends). -/
def outageUntil {σ : Type} (B : Backend σ) (err : JsError) : Backend (σ × Nat) where
  getUser := fun b => ((B.getUser b.1).1, ((B.getUser b.1).2, b.2))
  selectProfile := fun id b => ((B.selectProfile id b.1).1, ((B.selectProfile id b.1).2, b.2))
  selectOwnerinfo := fun id b =>
    match b.2 with
    | 0 => ((B.selectOwnerinfo id b.1).1, ((B.selectOwnerinfo id b.1).2, 0))
    | n + 1 => ({ data := none, error := some err }, (b.1, n))
  insertOwnerinfo := fun f b => ((B.insertOwnerinfo f b.1).1, ((B.insertOwnerinfo f b.1).2, b.2))
  signOut := fun b => ((B.signOut b.1).1, ((B.signOut b.1).2, b.2))

/-- A sample backend whose lookups on `ownerinfo` are served by a replica that
is one write behind: the state is the store together with the rows the replica
holds; an insert appends to the store and brings the replica to what the store
held before it. The other calls are those of `memStore`. -/
def replicaStore : Backend (Store × List OwnerRow) where
  getUser := fun b => ((memStore.getUser b.1).1, b)
  selectProfile := fun id b => ((memStore.selectProfile id b.1).1, b)
  selectOwnerinfo := fun id b => (single (b.2.filter fun r => r.uuid = id), b)
  insertOwnerinfo := fun f b =>
    (none, ({ b.1 with ownerinfo := b.1.ownerinfo ++ [rowOfForm f] }, b.1.ownerinfo))
  signOut := fun b => (none, ({ b.1 with session := none }, b.2))

/-- Sample store in which user `u1` has a record and another record carries the
empty owner identifier. -/
def storeEmptyOwner : Store :=
  { storeU1 with ownerinfo := [rowOfForm ⟨"Luis Díaz", "2009-03-02", "PE", ""⟩,
                               rowOfForm ⟨"Ana Pérez", "2010-05-01", "PE", "u1"⟩] }

/-- The date `d` lies after the date `hoy`, by year, then month, then day. -/
def isAfter (d hoy : JsDate) : Bool :=
  decide (hoy.fullYear < d.fullYear ∨
    (hoy.fullYear = d.fullYear ∧
      (hoy.month < d.month ∨ (hoy.month = d.month ∧ hoy.date < d.date))))

/-- At most one row of `ownerinfo` per owner identifier. -/
def atMostOnePerOwner (rows : List OwnerRow) : Prop :=
  (rows.map fun r => r.uuid).Nodup

/-- The backend `B` holds table `ownerinfo` as a plain collection, read from
its state by `rows`: an insert that reports no error appends one record, which
carries the owner identifier of the inserted form; an insert that reports an
error and every other call leave the collection as it is. Nothing is assumed
about the answers of the calls. -/
structure PlainCollection {σ : Type} (B : Backend σ) (rows : σ → List OwnerRow) : Prop where
  getUser : ∀ b, rows (B.getUser b).2 = rows b
  selectProfile : ∀ id b, rows (B.selectProfile id b).2 = rows b
  selectOwnerinfo : ∀ id b, rows (B.selectOwnerinfo id b).2 = rows b
  signOut : ∀ b, rows (B.signOut b).2 = rows b
  insertDone : ∀ f b, (B.insertOwnerinfo f b).1 = none →
    ∃ r, r.uuid = f.uuid ∧ rows (B.insertOwnerinfo f b).2 = rows b ++ [r]
  insertRefused : ∀ f b err, (B.insertOwnerinfo f b).1 = some err →
    rows (B.insertOwnerinfo f b).2 = rows b

/-- The lookup on `ownerinfo` does not answer not-found for an owner who has a
record: when the collection holds at most one record per owner and the lookup
of `id` answers no record, with no error or with the error `PGRST116` (the
answers `fetchUserData` takes as not-found), no record of the collection
carries `id`. The lookup may still fail with any other error. -/
def NotFoundIsRight {σ : Type} (B : Backend σ) (rows : σ → List OwnerRow) : Prop :=
  ∀ id b, atMostOnePerOwner (rows b) → (B.selectOwnerinfo id b).1.data = none →
    (B.selectOwnerinfo id b).1.error.filter (fun e => e.code ≠ some "PGRST116") = none →
    ∀ r ∈ rows b, r.uuid ≠ id

/-- The submission handled from the configuration `c` reads back what it
wrote: when `handleSubmit` calls the insert (the log gains one insert) and the
insert reports no error, the lookup that follows returns a record, so that the
state after the submission holds one. -/
def readsBackAt {σ : Type} (B : Backend σ) (host : Host) (c : State × World σ) : Prop :=
  insertCount (handleSubmit B host c.1 c.2).2.calls = insertCount c.2.calls + 1 →
  (B.insertOwnerinfo c.1.formData c.2.backend).1 = none →
  (handleSubmit B host c.1 c.2).1.ownerInfo ≠ none

/-- Whether a submission reads back what it wrote can be computed. -/
instance readsBackAt.instDecidable {σ : Type} (B : Backend σ) (host : Host)
    (c : State × World σ) : Decidable (readsBackAt B host c) :=
  inferInstanceAs (Decidable
    (insertCount (handleSubmit B host c.1 c.2).2.calls = insertCount c.2.calls + 1 →
      (B.insertOwnerinfo c.1.formData c.2.backend).1 = none →
      (handleSubmit B host c.1 c.2).1.ownerInfo ≠ none))

/-- Along the run of `events` from `c`, every submission reads back what it
wrote. Nothing is asked of the other lookups, nor of a submission whose insert
is refused. -/
def readsBack {σ : Type} (B : Backend σ) (host : Host) :
    List Event → State × World σ → Bool
  | [], _ => true
  | e :: es, c =>
    (match e with
      | .submit => decide (readsBackAt B host c)
      | _ => true) &&
    match step B host e c with
    | some c1 => readsBack B host es c1
    | none => true

/-- The invariant of the gate over a collection: at most one record per owner
and, as long as the state holds no record, no record for the owner identifier
carried by the form. -/
def formOwnerFree {σ : Type} (rows : σ → List OwnerRow) (c : State × World σ) : Prop :=
  atMostOnePerOwner (rows c.2.backend) ∧
  (c.1.ownerInfo = none → ∀ r ∈ rows c.2.backend, r.uuid ≠ c.1.formData.uuid)

/-! ## `formatDate` of `src/pages/infow.js` -/

/-- The year as a date format writes it when no era is shown: a year before
year 1 is counted backwards within its era, so that year `0` is written `1`. -/
def eraYear (y : Int) : Int :=
  if 0 < y then y else 1 - y

/-- `date.toLocaleDateString("es-ES")`, a service of the host: in the Spanish
locale the default date format is day, month and year in that order,
separated by `/`, each written as a plain decimal number without leading
zeros. -/
def toLocaleDateStringEs (date : JsDate) : String :=
  toString date.date ++ "/" ++ toString (date.month + 1) ++ "/" ++
    toString (eraYear date.fullYear)

/-- `formatDate(fechaStr)` of `src/pages/infow.js`. -/
def formatDate (host : Host) (fechaStr : JsValue) : String :=
  match fechaStr with
  | .null => "-"
  | .undefined => "-"
  | .str s =>
    -- if (!fechaStr) return "-";
    if s = "" then "-"
    else
      -- const date = new Date(fechaStr); if (isNaN(date)) return "-";
      match host.parseDate s with
      | none => "-"
      | some date => toLocaleDateStringEs date

/-! ## Regular expressions

The two regular expression literals of `src/pages/gestionar/usuarios.js` are
built from literal characters and repeated character classes; `RegExp.test`
below is a matcher for such expressions (no flags, so `test` keeps no state). -/

/-- One element of a regular expression: a literal character, a class
repeated one or more times (`cls+`), or a class repeated between `lo` and `hi`
times (`cls{lo,hi}`). -/
inductive ReAtom where
  | lit (c : Char)
  | plus (cls : Char → Bool)
  | rep (cls : Char → Bool) (lo hi : Nat)

/-- Matches `cls+` at the head of the input, then the continuation `k` on what
is left, trying every length. -/
def plusK (cls : Char → Bool) (k : List Char → Bool) : List Char → Bool
  | [] => false
  | c :: cs => cls c && (k cs || plusK cls k cs)

/-- Matches `cls{lo,hi}` at the head of the input, then the continuation `k`
on what is left, trying every length. -/
def repK (cls : Char → Bool) (k : List Char → Bool) : Nat → Nat → List Char → Bool
  | lo, 0, cs => decide (lo = 0) && k cs
  | lo, hi + 1, cs =>
    (decide (lo = 0) && k cs) ||
      (match cs with
        | [] => false
        | c :: t => cls c && repK cls k (lo - 1) hi t)

/-- Matches the elements in sequence at the head of the input, then `k`. -/
def matchK : List ReAtom → (List Char → Bool) → List Char → Bool
  | [], k => k
  | .lit c :: rest, k => fun cs =>
    match cs with
    | [] => false
    | x :: t => decide (x = c) && matchK rest k t
  | .plus cls :: rest, k => plusK cls (matchK rest k)
  | .rep cls lo hi :: rest, k => repK cls (matchK rest k) lo hi

/-- Tries `f` at every position of the input, the end included. -/
def searchK (f : List Char → Bool) : List Char → Bool
  | [] => f []
  | c :: cs => f (c :: cs) || searchK f cs

/-- A regular expression literal: `^` or not, the elements, `$` or not. -/
structure RegExp where
  anchorStart : Bool
  atoms : List ReAtom
  anchorEnd : Bool

/-- `regexp.test(s)`. -/
def RegExp.test (r : RegExp) (s : String) : Bool :=
  let k : List Char → Bool := if r.anchorEnd then List.isEmpty else fun _ => true
  if r.anchorStart then matchK r.atoms k s.data else searchK (matchK r.atoms k) s.data

/-- The class `\S`: every character that is not white space. -/
def nonWhitespace (c : Char) : Bool := !isJsWhitespace c

/-- The literal `/\S+@\S+\.\S+/`. -/
def emailRegExp : RegExp where
  anchorStart := false
  atoms := [.plus nonWhitespace, .lit '@', .plus nonWhitespace, .lit '.', .plus nonWhitespace]
  anchorEnd := false

/-- The literal `/^\d{4,6}$/`; `\d` is the class of the ten ASCII digits. -/
def pinRegExp : RegExp where
  anchorStart := true
  atoms := [.rep Char.isDigit 4 6]
  anchorEnd := true

/-! ## The page `src/pages/gestionar/usuarios.js` -/

/-- Truthiness of a value: `null`, `undefined` and `""` are falsy. -/
def JsValue.truthy : JsValue → Bool
  | .str s => decide (s ≠ "")
  | _ => false

/-- The string held by a value (the empty string when there is none); it is
read only where the source has already tested the value to be truthy. -/
def JsValue.text : JsValue → String
  | .str s => s
  | _ => ""

/-- An object with the columns of `profiles` selected by `fetchUsers`: a row
of `users`, and also `formData` (`{}` has every field `undefined`). Values
are strings, `null` or `undefined`. -/
structure UserRecord where
  user_id : JsValue
  name : JsValue
  avatar_url : JsValue
  email : JsValue
  pin : JsValue
  description : JsValue
  created_at : JsValue
  updated_at : JsValue
  deriving DecidableEq, Repr

/-- The object `{}`. -/
def UserRecord.empty : UserRecord :=
  ⟨.undefined, .undefined, .undefined, .undefined, .undefined, .undefined, .undefined,
    .undefined⟩

/-- The React state of `AdminUsers`. -/
structure AdminState where
  isDropdownOpen : Bool
  users : List UserRecord
  editingId : JsValue
  formData : UserRecord
  loading : Bool
  error : Option String
  user : Option User
  checkingAuth : Bool
  deriving DecidableEq, Repr

/-- `validateForm` of `src/pages/gestionar/usuarios.js`: the value returned and
the state after the `setError` it may make. -/
def validateForm (s : AdminState) : Bool × AdminState :=
  if (!s.formData.name.truthy || jsTrim s.formData.name.text == "") = true then
    (false, { s with error := some "El nombre es obligatorio." })
  else if (!s.formData.email.truthy || !emailRegExp.test s.formData.email.text) = true then
    (false, { s with error := some "Email inválido." })
  else if (s.formData.pin.truthy && !pinRegExp.test s.formData.pin.text) = true then
    (false, { s with error := some "El pin debe tener entre 4 y 6 dígitos numéricos." })
  else (true, s)

/-- Sample state of `AdminUsers`: the form holds the given name, email and pin. -/
def adminForm (name email pin : JsValue) : AdminState where
  isDropdownOpen := false
  users := []
  editingId := .str "u1"
  formData := { UserRecord.empty with user_id := .str "u1", name := name, email := email,
                                      pin := pin }
  loading := false
  error := none
  user := some { id := "admin" }
  checkingAuth := false

/-- The condition on the name in words: a string that is not empty after
trimming. -/
def nameOk (v : JsValue) : Prop :=
  ∃ n, v = .str n ∧ isBlank n = false

/-- The condition on the email in words: a string that contains, in a row, one
or more non-white-space characters, `@`, one or more non-white-space
characters, `.`, and one or more non-white-space characters. -/
def emailOk (v : JsValue) : Prop :=
  ∃ e, v = .str e ∧
    ∃ pre a b c post, e.data = pre ++ (a ++ '@' :: (b ++ '.' :: (c ++ post))) ∧
      a ≠ [] ∧ b ≠ [] ∧ c ≠ [] ∧
      (∀ x ∈ a, isJsWhitespace x = false) ∧ (∀ x ∈ b, isJsWhitespace x = false) ∧
      (∀ x ∈ c, isJsWhitespace x = false)

/-- The condition on the pin in words: absent or empty, or a string of exactly
four to six decimal digits. -/
def pinOk (v : JsValue) : Prop :=
  v = .null ∨ v = .undefined ∨ v = .str "" ∨
    ∃ p, v = .str p ∧ 4 ≤ p.data.length ∧ p.data.length ≤ 6 ∧ ∀ c ∈ p.data, c.isDigit = true

/-! ## The managers of `src/pages/gestionar/`

The books, music and events pages each read and write one table. The calls
on that table are a collaborator (`TableBackend`), and every call, `alert` and
`console.error` is appended to a log. -/

/-- The `id` of a row: a number or a string. -/
inductive RowId where
  | num (n : Int)
  | str (s : String)
  deriving DecidableEq, Repr

/-- Answer of a `select`: `{ data, error }`; `data` is read only when there is
no error. -/
structure ListResp (R : Type) where
  data : List R
  error : Option JsError
  deriving DecidableEq, Repr

/-- The table of a page seen from its component, for a backend whose state has
type `σ`, forms of type `F` and rows of type `R`: `insert([form])`,
`update(form).eq("id", id)` and `select("*")`. -/
structure TableBackend (σ F R : Type) where
  insert : F → σ → Option JsError × σ
  update : F → RowId → σ → Option JsError × σ
  select : σ → ListResp R × σ

/-- One observable effect of a manager page. -/
inductive TableCall (F : Type) where
  | insert (row : F)
  | update (values : F) (id : RowId)
  | select
  | alert (message : String)
  | consoleError (error : JsError)
  deriving DecidableEq, Repr

/-- An insert or an update. -/
def TableCall.isWrite {F : Type} : TableCall F → Bool
  | .insert _ => true
  | .update _ _ => true
  | _ => false

/-- The backend state together with the log of the effects so far. -/
structure TableWorld (σ F : Type) where
  backend : σ
  calls : List (TableCall F)
  deriving DecidableEq, Repr

/-- Runs the insert of `row` and logs it. -/
def TableWorld.insert {σ F R : Type} (B : TableBackend σ F R) (row : F) (w : TableWorld σ F) :
    Option JsError × TableWorld σ F :=
  ((B.insert row w.backend).1,
   { backend := (B.insert row w.backend).2, calls := w.calls ++ [TableCall.insert row] })

/-- Runs the update of the row `id` with `values` and logs it. -/
def TableWorld.update {σ F R : Type} (B : TableBackend σ F R) (values : F) (id : RowId)
    (w : TableWorld σ F) : Option JsError × TableWorld σ F :=
  ((B.update values id w.backend).1,
   { backend := (B.update values id w.backend).2,
     calls := w.calls ++ [TableCall.update values id] })

/-- Runs the select of the table and logs it. -/
def TableWorld.select {σ F R : Type} (B : TableBackend σ F R) (w : TableWorld σ F) :
    ListResp R × TableWorld σ F :=
  ((B.select w.backend).1,
   { backend := (B.select w.backend).2, calls := w.calls ++ [TableCall.select] })

/-- Logs `alert(message)`. -/
def TableWorld.alert {σ F : Type} (message : String) (w : TableWorld σ F) : TableWorld σ F :=
  { w with calls := w.calls ++ [TableCall.alert message] }

/-- Logs `console.error(error)`. -/
def TableWorld.consoleError {σ F : Type} (error : JsError) (w : TableWorld σ F) :
    TableWorld σ F :=
  { w with calls := w.calls ++ [TableCall.consoleError error] }

/-- A table that answers every write with `writeError` and every select with
`rows`. -/
def constTable {F R : Type} (writeError : Option JsError) (rows : List R) :
    TableBackend Unit F R where
  insert := fun _ b => (writeError, b)
  update := fun _ _ b => (writeError, b)
  select := fun b => ({ data := rows, error := none }, b)

namespace Libros

/-- The form of `BooksManager`. -/
structure Form where
  title : String
  description : String
  cover_url : String
  portada_url : String
  deriving DecidableEq, Repr

/-- A row of table `books`. -/
structure Book where
  id : RowId
  title : JsValue
  description : JsValue
  cover_url : JsValue
  portada_url : JsValue
  created_at : JsValue
  deriving DecidableEq, Repr

/-- The React state of `BooksManager`. -/
structure State where
  books : List Book
  form : Form
  editingId : Option RowId
  loading : Bool
  user : Option User
  authLoading : Bool
  isDropdownOpen : Bool
  deriving DecidableEq, Repr

/-- The form with every field empty. -/
def emptyForm : Form := { title := "", description := "", cover_url := "", portada_url := "" }

/-- `fetchBooks` of `src/pages/gestionar/libros.js`. -/
def fetchBooks {σ : Type} (B : TableBackend σ Form Book) (s : State) (w : TableWorld σ Form) :
    State × TableWorld σ Form :=
  match s.user with
  | none => (s, w)
  | some _ =>
    let s0 : State := { s with loading := true }
    let r := w.select B
    match r.1.error with
    | some error =>
      ({ s0 with loading := false }, (r.2.alert "Error cargando libros").consoleError error)
    | none => ({ s0 with books := r.1.data, loading := false }, r.2)

/-- `handleCreate` of `src/pages/gestionar/libros.js`. -/
def handleCreate {σ : Type} (B : TableBackend σ Form Book) (s : State) (w : TableWorld σ Form) :
    State × TableWorld σ Form :=
  if jsTrim s.form.title = "" then (s, w.alert "El título es obligatorio")
  else
    let r := w.insert B s.form
    match r.1 with
    | some error => (s, (r.2.alert "Error creando libro").consoleError error)
    | none => fetchBooks B { s with form := emptyForm } r.2

/-- `handleSaveEdit(id)` of `src/pages/gestionar/libros.js`. -/
def handleSaveEdit {σ : Type} (B : TableBackend σ Form Book) (id : RowId) (s : State)
    (w : TableWorld σ Form) : State × TableWorld σ Form :=
  if jsTrim s.form.title = "" then (s, w.alert "El título es obligatorio")
  else
    let r := w.update B s.form id
    match r.1 with
    | some error => (s, (r.2.alert "Error guardando libro").consoleError error)
    | none => fetchBooks B { s with editingId := none, form := emptyForm } r.2

/-- Sample state: a signed-in user, no book loaded, the given form. -/
def sample (form : Form) : State where
  books := []
  form := form
  editingId := none
  loading := false
  user := some { id := "u1" }
  authLoading := false
  isDropdownOpen := false

end Libros

namespace Musicas

/-- The form of `MusicManager`. -/
structure Form where
  categoria : String
  musica_url : String
  portada_url : String
  titulo : String
  autor : String
  deriving DecidableEq, Repr

/-- A row of table `musicas`. -/
structure Music where
  id : RowId
  categoria : JsValue
  musica_url : JsValue
  portada_url : JsValue
  titulo : JsValue
  autor : JsValue
  deriving DecidableEq, Repr

/-- The React state of `MusicManager`. -/
structure State where
  musics : List Music
  form : Form
  editingId : Option RowId
  loading : Bool
  user : Option User
  isDropdownOpen : Bool
  deriving DecidableEq, Repr

/-- The form with every field empty. -/
def emptyForm : Form :=
  { categoria := "", musica_url := "", portada_url := "", titulo := "", autor := "" }

/-- `fetchMusics` of `src/pages/gestionar/musicas.js`. -/
def fetchMusics {σ : Type} (B : TableBackend σ Form Music) (s : State) (w : TableWorld σ Form) :
    State × TableWorld σ Form :=
  let s0 : State := { s with loading := true }
  let r := w.select B
  match r.1.error with
  | some error =>
    ({ s0 with loading := false }, (r.2.alert "Error cargando música").consoleError error)
  | none => ({ s0 with musics := r.1.data, loading := false }, r.2)

/-- `handleCreate` of `src/pages/gestionar/musicas.js`. -/
def handleCreate {σ : Type} (B : TableBackend σ Form Music) (s : State) (w : TableWorld σ Form) :
    State × TableWorld σ Form :=
  if jsTrim s.form.titulo = "" then (s, w.alert "El título es obligatorio")
  else
    let r := w.insert B s.form
    match r.1 with
    | some error => (s, (r.2.alert "Error creando música").consoleError error)
    | none => fetchMusics B { s with form := emptyForm } r.2

/-- `handleSaveEdit(id)` of `src/pages/gestionar/musicas.js`. -/
def handleSaveEdit {σ : Type} (B : TableBackend σ Form Music) (id : RowId) (s : State)
    (w : TableWorld σ Form) : State × TableWorld σ Form :=
  if jsTrim s.form.titulo = "" then (s, w.alert "El título es obligatorio")
  else
    let r := w.update B s.form id
    match r.1 with
    | some error => (s, (r.2.alert "Error guardando música").consoleError error)
    | none => fetchMusics B { s with editingId := none, form := emptyForm } r.2

/-- Sample state: a signed-in user, no music loaded, the given form. -/
def sample (form : Form) : State where
  musics := []
  form := form
  editingId := none
  loading := false
  user := some { id := "u1" }
  isDropdownOpen := false

end Musicas

namespace Eventos

/-- The form of the events page. -/
structure Form where
  name : String
  date : String
  description : String
  winner : String
  cover : String
  deriving DecidableEq, Repr

/-- A row of table `events`. -/
structure EventRow where
  id : RowId
  name : JsValue
  date : JsValue
  description : JsValue
  winner : JsValue
  cover : JsValue
  deriving DecidableEq, Repr

/-- The React state of the events page. -/
structure State where
  isDropdownOpen : Bool
  events : List EventRow
  form : Form
  editingWinnerId : Option RowId
  winnerInput : String
  loadingUser : Bool
  deriving DecidableEq, Repr

/-- The form with every field empty. -/
def emptyForm : Form := { name := "", date := "", description := "", winner := "", cover := "" }

/-- `fetchEvents` of `src/pages/gestionar/eventos.js`. -/
def fetchEvents {σ : Type} (B : TableBackend σ Form EventRow) (s : State)
    (w : TableWorld σ Form) : State × TableWorld σ Form :=
  let r := w.select B
  match r.1.error with
  | some error => (s, r.2.consoleError error)
  | none => ({ s with events := r.1.data }, r.2)

/-- `handleCreateEvent` of `src/pages/gestionar/eventos.js`. -/
def handleCreateEvent {σ : Type} (B : TableBackend σ Form EventRow) (s : State)
    (w : TableWorld σ Form) : State × TableWorld σ Form :=
  -- if (!form.name || !form.date) return alert("Nombre y fecha son obligatorios");
  if s.form.name = "" ∨ s.form.date = "" then (s, w.alert "Nombre y fecha son obligatorios")
  else
    let r := w.insert B s.form
    match r.1 with
    | some error => (s, (r.2.alert "Error al crear evento").consoleError error)
    | none => fetchEvents B { s with form := emptyForm } r.2

/-- Sample state: no event loaded, the given form. -/
def sample (form : Form) : State where
  isDropdownOpen := false
  events := []
  form := form
  editingWinnerId := none
  winnerInput := ""
  loadingUser := false

end Eventos

/-- The error thrown inside the `try` block of `fetchUserData` on a backend in
state `b`, if any: the new `Error` when `getUser` answers an error or no user,
the error of the profile query, or the error of the lookup on `ownerinfo` when
its code is not `PGRST116`. -/
def thrownByFetch {σ : Type} (B : Backend σ) (b : σ) : Option JsError :=
  match (B.getUser b).1.error, (B.getUser b).1.user with
  | none, some user =>
    match (B.selectProfile user.id (B.getUser b).2).1.error with
    | some profileError => some profileError
    | none =>
      (B.selectOwnerinfo user.id (B.selectProfile user.id (B.getUser b).2).2).1.error.filter
        (fun e => e.code ≠ some "PGRST116")
  | _, _ => some { message := "No hay usuario logueado", code := none }

/-! ## Editing in `src/pages/gestionar/usuarios.js` -/

namespace Usuarios

/-- The expression `v || null`. -/
def orNull (v : JsValue) : JsValue :=
  if v.truthy = true then v else .null

/-- One key of the spread `{ ...user, ...formData }`: the value of `formData`
when the key is present there, otherwise the value of `user`. An absent key
is `undefined`: rows are read from JSON and inputs give strings, so no key is
ever present with the value `undefined`. -/
def over (user formData : JsValue) : JsValue :=
  match formData with
  | .undefined => user
  | v => v

/-- The object `{ ...user, ...formData }`. -/
def spread (user formData : UserRecord) : UserRecord where
  user_id := over user.user_id formData.user_id
  name := over user.name formData.name
  avatar_url := over user.avatar_url formData.avatar_url
  email := over user.email formData.email
  pin := over user.pin formData.pin
  description := over user.description formData.description
  created_at := over user.created_at formData.created_at
  updated_at := over user.updated_at formData.updated_at

/-- The object passed to `update` by `saveChanges`. -/
structure ProfileUpdate where
  name : String
  avatar_url : JsValue
  email : String
  pin : JsValue
  description : JsValue
  updated_at : String
  deriving DecidableEq, Repr

/-- The table `profiles` seen from `saveChanges`, for a backend whose state has
type `σ`: `update(values).eq("user_id", id)`. -/
structure UsersBackend (σ : Type) where
  update : ProfileUpdate → JsValue → σ → Option JsError × σ

/-- One observable call of `saveChanges`. -/
inductive UsersCall where
  | update (values : ProfileUpdate) (userId : JsValue)
  deriving DecidableEq, Repr

/-- The backend state together with the log of the calls made so far. -/
structure UsersWorld (σ : Type) where
  backend : σ
  calls : List UsersCall
  deriving DecidableEq, Repr

/-- Runs the update and logs it. -/
def UsersWorld.update {σ : Type} (B : UsersBackend σ) (values : ProfileUpdate) (id : JsValue)
    (w : UsersWorld σ) : Option JsError × UsersWorld σ :=
  ((B.update values id w.backend).1,
   { backend := (B.update values id w.backend).2,
     calls := w.calls ++ [UsersCall.update values id] })

/-- The initial values given to `useState`. -/
def initialState : AdminState where
  isDropdownOpen := false
  users := []
  editingId := .null
  formData := UserRecord.empty
  loading := false
  error := none
  user := none
  checkingAuth := true

/-- `startEdit(user)`. -/
def startEdit (user : UserRecord) (s : AdminState) : AdminState :=
  { s with editingId := user.user_id, formData := user, error := none }

/-- `cancelEdit()`. -/
def cancelEdit (s : AdminState) : AdminState :=
  { s with editingId := .null, formData := UserRecord.empty, error := none }

/-- The inputs of an edited row, by their `name` attribute. -/
inductive Field where
  | avatar_url
  | name
  | email
  | pin
  | description
  deriving DecidableEq, Repr

/-- `handleChange`: `setFormData((prev) => ({ ...prev, [name]: value }))`. -/
def handleChange (key : Field) (value : String) (s : AdminState) : AdminState :=
  match key with
  | .avatar_url => { s with formData := { s.formData with avatar_url := .str value } }
  | .name => { s with formData := { s.formData with name := .str value } }
  | .email => { s with formData := { s.formData with email := .str value } }
  | .pin => { s with formData := { s.formData with pin := .str value } }
  | .description => { s with formData := { s.formData with description := .str value } }

/-- The object literal passed to `update` by `saveChanges`; `now` is
`new Date().toISOString()`. -/
def updateValues (now : String) (formData : UserRecord) : ProfileUpdate where
  name := jsTrim formData.name.text
  avatar_url := orNull formData.avatar_url
  email := jsTrim formData.email.text
  pin := orNull formData.pin
  description := orNull formData.description
  updated_at := now

/-- `saveChanges` of `src/pages/gestionar/usuarios.js`; `now` is
`new Date().toISOString()`. -/
def saveChanges {σ : Type} (B : UsersBackend σ) (now : String) (s : AdminState)
    (w : UsersWorld σ) : AdminState × UsersWorld σ :=
  -- if (!validateForm()) return;
  if (validateForm s).1 = false then ((validateForm s).2, w)
  else
    -- setLoading(true); setError(null);
    let s0 : AdminState := { (validateForm s).2 with loading := true, error := none }
    let r := w.update B (updateValues now s.formData) s.editingId
    match r.1 with
    | some error => ({ s0 with error := some error.message, loading := false }, r.2)
    | none =>
      ({ cancelEdit
          { s0 with users := s0.users.map fun user =>
              if user.user_id = s.editingId then spread user s.formData else user } with
          loading := false }, r.2)

/-- The form belongs to the edited row: its `user_id` is absent or is the
editing id. -/
def formOfEditedRow (s : AdminState) : Prop :=
  s.formData.user_id = .undefined ∨ s.formData.user_id = s.editingId

/-- A backend that answers every update with `answer`. -/
def constUsers (answer : Option JsError) : UsersBackend Unit where
  update := fun _ _ b => (answer, b)

/-- Sample row of `profiles`. -/
def rowAna : UserRecord :=
  ⟨.str "u1", .str "Ana", .null, .str "ana@x.org", .str "12345", .null,
    .str "2025-01-01T00:00:00Z", .null⟩

/-- Sample row of `profiles`. -/
def rowLuis : UserRecord :=
  ⟨.str "u2", .str "Luis", .null, .str "luis@x.org", .null, .null,
    .str "2025-01-02T00:00:00Z", .null⟩

/-- Sample state: two users loaded, `rowAna` being edited with the given name. -/
def editingAna (nombre : String) : AdminState :=
  handleChange .name nombre
    (startEdit rowAna { initialState with users := [rowAna, rowLuis], checkingAuth := false })

end Usuarios

/-! ## Editing in the books and music managers -/

/-- The expression `v || ""`. -/
def JsValue.orEmpty (v : JsValue) : String :=
  if v.truthy = true then v.text else ""

/-- `handleEdit(book)` of `src/pages/gestionar/libros.js`. -/
def Libros.handleEdit (book : Libros.Book) (s : Libros.State) : Libros.State :=
  { s with editingId := some book.id,
           form := { title := book.title.orEmpty,
                     description := book.description.orEmpty,
                     cover_url := book.cover_url.orEmpty,
                     portada_url := book.portada_url.orEmpty } }

/-- `handleCancelEdit()` of `src/pages/gestionar/libros.js`. -/
def Libros.handleCancelEdit (s : Libros.State) : Libros.State :=
  { s with editingId := none,
           form := { title := "", description := "", cover_url := "", portada_url := "" } }

/-- `handleEdit(music)` of `src/pages/gestionar/musicas.js`. -/
def Musicas.handleEdit (music : Musicas.Music) (s : Musicas.State) : Musicas.State :=
  { s with editingId := some music.id,
           form := { categoria := music.categoria.orEmpty,
                     musica_url := music.musica_url.orEmpty,
                     portada_url := music.portada_url.orEmpty,
                     titulo := music.titulo.orEmpty,
                     autor := music.autor.orEmpty } }

/-- `handleCancelEdit()` of `src/pages/gestionar/musicas.js`. -/
def Musicas.handleCancelEdit (s : Musicas.State) : Musicas.State :=
  { s with editingId := none,
           form := { categoria := "", musica_url := "", portada_url := "", titulo := "",
                     autor := "" } }

/-- The date `d1` is on or before the date `d2`, by year, then month, then day. -/
def onOrBefore (d1 d2 : JsDate) : Bool :=
  !isAfter d1 d2

/-! # Lemmas -/

/-- Trimming leaves nothing exactly when every character is white space. -/
theorem trimChars_eq_nil_iff (cs : List Char) :
    trimChars cs = [] ↔ ∀ c ∈ cs, isJsWhitespace c = true := by
  unfold trimChars
  rw [List.reverse_eq_nil_iff, List.dropWhile_eq_nil_iff]
  constructor
  · intro h
    have hnil : cs.dropWhile isJsWhitespace = [] := by
      by_contra hne
      have hhead := List.head_dropWhile_not isJsWhitespace cs hne
      have hmem : (cs.dropWhile isJsWhitespace).head hne ∈ (cs.dropWhile isJsWhitespace).reverse :=
        List.mem_reverse.mpr (List.head_mem hne)
      rw [h _ hmem] at hhead
      exact Bool.noConfusion hhead
    exact List.dropWhile_eq_nil_iff.mp hnil
  · intro h c hc
    have hnil : cs.dropWhile isJsWhitespace = [] := List.dropWhile_eq_nil_iff.mpr h
    simp [hnil] at hc

/-- The test `!s.trim()` of the source holds exactly for blank strings. -/
theorem jsTrim_eq_empty_iff (s : String) : jsTrim s = "" ↔ isBlank s = true := by
  unfold jsTrim isBlank
  rw [List.all_eq_true, ← trimChars_eq_nil_iff]
  constructor
  · intro h
    have := congrArg String.data h
    simpa using this
  · intro h
    rw [h]

/-- Counting inserts distributes over the concatenation of logs. -/
theorem insertCount_append (l1 l2 : List Call) :
    insertCount (l1 ++ l2) = insertCount l1 + insertCount l2 := by
  simp [insertCount]

/-- Counting `getUser` calls distributes over the concatenation of logs. -/
theorem getUserCount_append (l1 l2 : List Call) :
    getUserCount (l1 ++ l2) = getUserCount l1 + getUserCount l2 := by
  simp [getUserCount]

/-- Every run of `fetchUserData` appends to the log one `getUser` call and no
`insert` call. -/
theorem fetchUserData_calls {σ : Type} (B : Backend σ) (s : State) (w : World σ) :
    ∃ rest, (fetchUserData B s w).2.calls = w.calls ++ rest ∧
      insertCount rest = 0 ∧ getUserCount rest = 1 := by
  simp only [fetchUserData]
  split
  · rename_i user _ _
    split
    · exact ⟨[Call.getUser, Call.selectProfile user.id],
        by simp [World.getUser, World.selectProfile], by simp [insertCount], by simp [getUserCount]⟩
    · split
      · exact ⟨[Call.getUser, Call.selectProfile user.id, Call.selectOwnerinfo user.id],
          by simp [World.getUser, World.selectProfile, World.selectOwnerinfo],
          by simp [insertCount], by simp [getUserCount]⟩
      · split
        · exact ⟨[Call.getUser, Call.selectProfile user.id, Call.selectOwnerinfo user.id],
            by simp [World.getUser, World.selectProfile, World.selectOwnerinfo],
            by simp [insertCount], by simp [getUserCount]⟩
        · exact ⟨[Call.getUser, Call.selectProfile user.id, Call.selectOwnerinfo user.id],
            by simp [World.getUser, World.selectProfile, World.selectOwnerinfo],
            by simp [insertCount], by simp [getUserCount]⟩
  · exact ⟨[Call.getUser], by simp [World.getUser], by decide, by decide⟩

/-- The result of `fetchUserData` when the user and the profile are fetched and
the lookup on `ownerinfo` answers the record `r`. -/
theorem fetchUserData_found {σ : Type} (B : Backend σ) (s : State) (w : World σ)
    (u : User) (p : Option Profile) (r : OwnerRow) (b1 b2 b3 : σ)
    (hauth : B.getUser w.backend = ({ user := some u, error := none }, b1))
    (hprof : B.selectProfile u.id b1 = ({ data := p, error := none }, b2))
    (hown : B.selectOwnerinfo u.id b2 = ({ data := some r, error := none }, b3)) :
    fetchUserData B s w =
      ({ s with userProfile := p, ownerInfo := some r, loading := false, formError := "" },
       { backend := b3,
         calls := w.calls ++
           [Call.getUser, Call.selectProfile u.id, Call.selectOwnerinfo u.id] }) := by
  simp [fetchUserData, World.getUser, World.selectProfile, World.selectOwnerinfo,
    hauth, hprof, hown]

/-- A string that parses to a date is not empty. -/
theorem ne_empty_of_parse (host : Host) (s : String) (d : JsDate)
    (h : host.parseDate s = some d) : s ≠ "" := by
  intro he
  rw [he, host.parseDate_empty] at h
  exact Option.noConfusion h

/-- Past the required-field check, `handleSubmit` is the year check followed by
the insert of the form as it stands and, when the insert succeeds, one run of
`fetchUserData`. -/
theorem handleSubmit_filled {σ : Type} (B : Backend σ) (host : Host) (s : State) (w : World σ)
    (hn : isBlank s.formData.nombresyapellidos = false)
    (hf : s.formData.fechadenacimiento ≠ "")
    (hc : isBlank s.formData.nacionalidad = false) :
    handleSubmit B host s w =
      if jsGe ((host.parseDate s.formData.fechadenacimiento).map JsDate.fullYear) 2013 = true then
        ({ s with formError := ineligibleMessage }, w)
      else
        match (w.insertOwnerinfo B s.formData).1 with
        | some insertError =>
          ({ s with formError := insertError.message }, (w.insertOwnerinfo B s.formData).2)
        | none => fetchUserData B { s with formError := "" } (w.insertOwnerinfo B s.formData).2 := by
  have hcond : ¬ (jsTrim s.formData.nombresyapellidos = "" ∨ s.formData.fechadenacimiento = "" ∨
      jsTrim s.formData.nacionalidad = "") := by
    rw [jsTrim_eq_empty_iff, jsTrim_eq_empty_iff]
    rintro (h | h | h)
    · rw [hn] at h; exact Bool.noConfusion h
    · exact hf h
    · rw [hc] at h; exact Bool.noConfusion h
  simp only [handleSubmit]
  rw [if_neg hcond]

/-- A submission that passes both checks makes one insert: the log of
`handleSubmit` is the old log, the insert of the form, and calls that are not
inserts. -/
theorem handleSubmit_calls_of_accept {σ : Type} (B : Backend σ) (host : Host) (s : State)
    (w : World σ) (hn : isBlank s.formData.nombresyapellidos = false)
    (hf : s.formData.fechadenacimiento ≠ "") (hc : isBlank s.formData.nacionalidad = false)
    (hy : jsGe ((host.parseDate s.formData.fechadenacimiento).map JsDate.fullYear) 2013 = false) :
    ∃ rest, (handleSubmit B host s w).2.calls =
        w.calls ++ Call.insertOwnerinfo s.formData :: rest ∧ insertCount rest = 0 := by
  rw [handleSubmit_filled B host s w hn hf hc, hy]
  simp only [Bool.false_eq_true, if_false]
  split
  · exact ⟨[], by simp [World.insertOwnerinfo], rfl⟩
  · obtain ⟨rest, h1, h2, _⟩ := fetchUserData_calls B { s with formError := "" }
      (w.insertOwnerinfo B s.formData).2
    exact ⟨rest, by rw [h1]; simp [World.insertOwnerinfo], h2⟩

/-- A submission that passes both checks adds exactly one insert to the log. -/
theorem handleSubmit_insertCount_of_accept {σ : Type} (B : Backend σ) (host : Host) (s : State)
    (w : World σ) (hn : isBlank s.formData.nombresyapellidos = false)
    (hf : s.formData.fechadenacimiento ≠ "") (hc : isBlank s.formData.nacionalidad = false)
    (hy : jsGe ((host.parseDate s.formData.fechadenacimiento).map JsDate.fullYear) 2013 = false) :
    insertCount (handleSubmit B host s w).2.calls = insertCount w.calls + 1 := by
  obtain ⟨rest, h1, h2⟩ := handleSubmit_calls_of_accept B host s w hn hf hc hy
  rw [h1, insertCount_append]
  have hcons : insertCount (Call.insertOwnerinfo s.formData :: rest) = insertCount rest + 1 := by
    simp [insertCount]
  rw [hcons, h2]

/-- With an owner record in the state the completion form is not rendered. -/
theorem render_of_ownerInfo (s : State) (h : s.ownerInfo ≠ none) :
    render s ≠ .completionForm := by
  unfold render
  split
  · exact fun hc => View.noConfusion hc
  · split
    · rename_i hnone
      exact absurd (Option.isNone_iff_eq_none.mp hnone) h
    · exact fun hc => View.noConfusion hc

/-- An event handled in a state with an owner record keeps the record and
makes no insert. -/
theorem step_of_ownerInfo {σ : Type} (B : Backend σ) (host : Host) (e : Event)
    (c c2 : State × World σ) (h : c.1.ownerInfo ≠ none) (hstep : step B host e c = some c2) :
    c2.1.ownerInfo = c.1.ownerInfo ∧ insertCount c2.2.calls = insertCount c.2.calls := by
  have hr := render_of_ownerInfo c.1 h
  unfold step at hstep
  cases hv : render c.1 with
  | completionForm => exact absurd hv hr
  | cargando =>
    rw [hv] at hstep
    cases e <;> simp at hstep
  | contenido =>
    rw [hv] at hstep
    cases e with
    | change name value => simp at hstep
    | submit => simp at hstep
    | navigate url =>
      simp only at hstep
      split at hstep
      · cases hstep
        simp [World.routerPush, insertCount]
      · exact Option.noConfusion hstep
    | toggleDropdown =>
      simp only at hstep
      split at hstep
      · cases hstep
        exact ⟨rfl, rfl⟩
      · exact Option.noConfusion hstep
    | signOutClick =>
      simp only at hstep
      split at hstep
      · cases hstep
        refine ⟨rfl, ?_⟩
        simp only [handleSignOut]
        split <;> simp [World.routerPush, World.signOut, insertCount]
      · exact Option.noConfusion hstep

/-! # Statements about `calcularEdad` -/

/-- What `calcularEdad` computes: for a birth date that the host parses to the
local fields `nac` and any current date `hoy`, it is `hoy.year - nac.year` when
the (month, day) of `hoy` is equal to or later than that of `nac`, and one
less when it precedes it. The fields `nac` are those of the parsed `Date` in
the zone of the host, not the day written in the string. -/
theorem calcularEdad_years (host : Host) (hoy nac : JsDate) (s : String)
    (hparse : host.parseDate s = some nac) :
    (¬ (hoy.month < nac.month ∨ (hoy.month = nac.month ∧ hoy.date < nac.date)) →
        calcularEdad host hoy (.str s) = some (hoy.fullYear - nac.fullYear)) ∧
    ((hoy.month < nac.month ∨ (hoy.month = nac.month ∧ hoy.date < nac.date)) →
        calcularEdad host hoy (.str s) = some (hoy.fullYear - nac.fullYear - 1)) := by
  have hne : s ≠ "" := by
    intro h
    rw [h, host.parseDate_empty] at hparse
    exact Option.noConfusion hparse
  have hcond : ((hoy.month : Int) - (nac.month : Int) < 0 ∨
      ((hoy.month : Int) - (nac.month : Int) = 0 ∧ hoy.date < nac.date)) ↔
      (hoy.month < nac.month ∨ (hoy.month = nac.month ∧ hoy.date < nac.date)) := by
    constructor
    · rintro (h | ⟨h1, h2⟩)
      · left; omega
      · right; exact ⟨by omega, h2⟩
    · rintro (h | ⟨h1, h2⟩)
      · left; omega
      · right; exact ⟨by omega, h2⟩
  constructor
  · intro h
    simp only [calcularEdad, hne, if_false, hparse]
    rw [if_neg (fun hc => h (hcond.mp hc))]
  · intro h
    simp only [calcularEdad, hne, if_false, hparse]
    rw [if_pos (hcond.mpr h)]

/-- Example in the UTC zone, where the parsed fields are the day written in
the string: born 2010-05-01, asked on 2024-04-30. -/
theorem calcularEdad_years_witness :
    utcHost.parseDate "2010-05-01" = some ⟨2010, 4, 1⟩ ∧
    calcularEdad utcHost ⟨2024, 3, 30⟩ (.str "2010-05-01") = some (2024 - 2010 - 1) :=
  ⟨by decide,
   (calcularEdad_years utcHost ⟨2024, 3, 30⟩ ⟨2010, 4, 1⟩ "2010-05-01" (by decide)).2
     (by decide)⟩

/-- Evaluation for C1: on a host behind UTC the birth date `"2010-05-01"` is
read as 30 April 2010 in local time. On 30 April 2024, the day before the
fourteenth birthday, `calcularEdad` therefore gives 14, while the month and day
of the current date precede those of the birth date and the age by the
calendar is `2024 - 2010 - 1 = 13`, the value the same call gives in the UTC
zone. -/
theorem calcularEdad_behind_utc :
    isoDateOnly "2010-05-01".data = some ⟨2010, 4, 1⟩ ∧
    limaHost.parseDate "2010-05-01" = some ⟨2010, 3, 30⟩ ∧
    calcularEdad limaHost ⟨2024, 3, 30⟩ (.str "2010-05-01") = some 14 ∧
    calcularEdad utcHost ⟨2024, 3, 30⟩ (.str "2010-05-01") = some (2024 - 2010 - 1) := by
  decide

/-- C2: `calcularEdad` returns `null` exactly when the birth date is absent
(`null`, `undefined` or the empty string) or is a string that does not parse to
a date; hence for every parseable birth date it returns an integer. -/
theorem calcularEdad_null_iff (host : Host) (hoy : JsDate) (v : JsValue) :
    calcularEdad host hoy v = none ↔
      (v = .null ∨ v = .undefined ∨ v = .str "" ∨
        ∃ s, v = .str s ∧ host.parseDate s = none) := by
  cases v with
  | null => simp [calcularEdad]
  | undefined => simp [calcularEdad]
  | str s =>
    by_cases hs : s = ""
    · simp [calcularEdad, hs]
    · cases hp : host.parseDate s with
      | none => simp [calcularEdad, hs, hp]
      | some d =>
        simp only [calcularEdad, hs, if_false, hp]
        split <;> simp [hs, hp]

/-- Witness of C2 on the sample host: `"not-a-date"` does not parse and gives
`null`. -/
theorem calcularEdad_null_iff_witness :
    utcHost.parseDate "not-a-date" = none ∧
    calcularEdad utcHost ⟨2024, 3, 30⟩ (.str "not-a-date") = none :=
  ⟨by decide,
   (calcularEdad_null_iff utcHost ⟨2024, 3, 30⟩ (.str "not-a-date")).mpr
    (Or.inr (Or.inr (Or.inr ⟨"not-a-date", rfl, by decide⟩)))⟩

/-! # Statements about `handleSubmit` and `fetchUserData` -/

/-- What the year check of `handleSubmit` tests: for a form whose name and
nationality are not blank and whose birth date parses to `d`, `handleSubmit`
rejects the submission (sets the ineligibility message and does nothing else,
in particular calls nothing) if and only if the year of `d`, the local year
of the parsed `Date` in the zone of the host, is 2013 or later. -/
theorem handleSubmit_rejects_iff {σ : Type} (B : Backend σ) (host : Host) (s : State)
    (w : World σ) (d : JsDate)
    (hn : isBlank s.formData.nombresyapellidos = false)
    (hc : isBlank s.formData.nacionalidad = false)
    (hparse : host.parseDate s.formData.fechadenacimiento = some d) :
    handleSubmit B host s w = ({ s with formError := ineligibleMessage }, w) ↔
      2013 ≤ d.fullYear := by
  have hf := ne_empty_of_parse host _ d hparse
  constructor
  · intro h
    by_contra hlt
    have hy : jsGe ((host.parseDate s.formData.fechadenacimiento).map JsDate.fullYear) 2013
        = false := by
      simp [hparse, jsGe, hlt]
    have hcount := handleSubmit_insertCount_of_accept B host s w hn hf hc hy
    rw [h] at hcount
    simp at hcount
  · intro hge
    rw [handleSubmit_filled B host s w hn hf hc]
    have hy : jsGe ((host.parseDate s.formData.fechadenacimiento).map JsDate.fullYear) 2013
        = true := by
      simp [hparse, jsGe, hge]
    rw [if_pos hy]

/-- Example in the UTC zone: a birth date of 2013-01-01 is rejected. -/
theorem handleSubmit_rejects_iff_witness :
    handleSubmit memStore utcHost (filledForm "Ana Pérez" "2013-01-01" "PE") ⟨storeU1, []⟩ =
      ({ filledForm "Ana Pérez" "2013-01-01" "PE" with formError := ineligibleMessage },
       ⟨storeU1, []⟩) :=
  (handleSubmit_rejects_iff memStore utcHost (filledForm "Ana Pérez" "2013-01-01" "PE")
    ⟨storeU1, []⟩ ⟨2013, 0, 1⟩ (by decide) (by decide) (by decide)).mpr (by decide)

/-- Evaluation for C3: on a host behind UTC the birth date `"2013-01-01"`, of
calendar year 2013, has the local year 2012, so the check `birthYear >= 2013`
does not reject it: the state after `handleSubmit` is not the rejection, no
message is set and the insert is called. In the UTC zone the same submission
is rejected. -/
theorem handleSubmit_behind_utc_not_rejected :
    isoDateOnly "2013-01-01".data = some ⟨2013, 0, 1⟩ ∧
    limaHost.parseDate "2013-01-01" = some ⟨2012, 11, 31⟩ ∧
    handleSubmit memStore limaHost (filledForm "Ana Pérez" "2013-01-01" "PE") ⟨storeU1, []⟩ ≠
      ({ filledForm "Ana Pérez" "2013-01-01" "PE" with formError := ineligibleMessage },
       ⟨storeU1, []⟩) ∧
    (handleSubmit memStore limaHost (filledForm "Ana Pérez" "2013-01-01" "PE")
        ⟨storeU1, []⟩).1.formError = "" ∧
    Call.insertOwnerinfo ⟨"Ana Pérez", "2013-01-01", "PE", "u1"⟩ ∈
      (handleSubmit memStore limaHost (filledForm "Ana Pérez" "2013-01-01" "PE")
        ⟨storeU1, []⟩).2.calls ∧
    handleSubmit memStore utcHost (filledForm "Ana Pérez" "2013-01-01" "PE") ⟨storeU1, []⟩ =
      ({ filledForm "Ana Pérez" "2013-01-01" "PE" with formError := ineligibleMessage },
       ⟨storeU1, []⟩) := by
  decide

/-- C4: when the name or the nationality is empty or made of white space
only, `handleSubmit` sets the missing-field message, changes nothing else and
calls nothing (so no insert), whatever the other fields are. -/
theorem handleSubmit_missing_field {σ : Type} (B : Backend σ) (host : Host) (s : State)
    (w : World σ)
    (hblank : isBlank s.formData.nombresyapellidos = true ∨
      isBlank s.formData.nacionalidad = true) :
    handleSubmit B host s w = ({ s with formError := missingFieldMessage }, w) ∧
    (handleSubmit B host s w).1.formError = "Por favor completa todos los campos" ∧
    (handleSubmit B host s w).2.calls = w.calls ∧
    insertCount (handleSubmit B host s w).2.calls = insertCount w.calls := by
  have hcond : jsTrim s.formData.nombresyapellidos = "" ∨ s.formData.fechadenacimiento = "" ∨
      jsTrim s.formData.nacionalidad = "" := by
    rw [jsTrim_eq_empty_iff, jsTrim_eq_empty_iff]
    rcases hblank with h | h
    · exact Or.inl h
    · exact Or.inr (Or.inr h)
  have h : handleSubmit B host s w = ({ s with formError := missingFieldMessage }, w) := by
    simp only [handleSubmit]
    rw [if_pos hcond]
  rw [h]
  exact ⟨rfl, rfl, rfl, rfl⟩

/-- Witness of C4: a name of two spaces, the other fields filled. -/
theorem handleSubmit_missing_field_witness :
    (handleSubmit memStore utcHost (filledForm "  " "2010-05-01" "PE")
        ⟨storeU1, []⟩).1.formError = "Por favor completa todos los campos" ∧
    (handleSubmit memStore utcHost (filledForm "  " "2010-05-01" "PE")
        ⟨storeU1, []⟩).2.calls = [] :=
  have h := handleSubmit_missing_field memStore utcHost (filledForm "  " "2010-05-01" "PE")
    ⟨storeU1, []⟩ (Or.inl (by decide))
  ⟨h.2.1, h.2.2.1⟩

/-- What a rejection by the year check leaves behind: in the completion state
(not loading, no owner record), for a form whose name and nationality are not
blank and whose birth date parses to a date whose local year is 2013 or later,
`handleSubmit` sets the ineligibility message, leaves the collaborators
untouched (no insert), and the gate stays in the completion state with the
form data unchanged. -/
theorem handleSubmit_ineligible {σ : Type} (B : Backend σ) (host : Host) (s : State)
    (w : World σ) (d : JsDate)
    (hload : s.loading = false) (hown : s.ownerInfo = none)
    (hn : isBlank s.formData.nombresyapellidos = false)
    (hc : isBlank s.formData.nacionalidad = false)
    (hparse : host.parseDate s.formData.fechadenacimiento = some d)
    (hyear : 2013 ≤ d.fullYear) :
    (handleSubmit B host s w).1.formError = ineligibleMessage ∧
    (handleSubmit B host s w).2 = w ∧
    insertCount (handleSubmit B host s w).2.calls = insertCount w.calls ∧
    render (handleSubmit B host s w).1 = .completionForm ∧
    (handleSubmit B host s w).1.ownerInfo = none ∧
    (handleSubmit B host s w).1.formData = s.formData := by
  have hf := ne_empty_of_parse host _ d hparse
  have hy : jsGe ((host.parseDate s.formData.fechadenacimiento).map JsDate.fullYear) 2013
      = true := by
    simp [hparse, jsGe, hyear]
  have h : handleSubmit B host s w = ({ s with formError := ineligibleMessage }, w) := by
    rw [handleSubmit_filled B host s w hn hf hc, if_pos hy]
  rw [h]
  refine ⟨rfl, rfl, rfl, ?_, hown, rfl⟩
  simp [render, hload, hown]

/-- Example in the UTC zone: the birth date `"2015-01-01"`. -/
theorem handleSubmit_ineligible_witness :
    (handleSubmit memStore utcHost (filledForm "Ana Pérez" "2015-01-01" "PE")
        ⟨storeU1, []⟩).1.formError = ineligibleMessage ∧
    insertCount (handleSubmit memStore utcHost (filledForm "Ana Pérez" "2015-01-01" "PE")
        ⟨storeU1, []⟩).2.calls = insertCount [] ∧
    render (handleSubmit memStore utcHost (filledForm "Ana Pérez" "2015-01-01" "PE")
        ⟨storeU1, []⟩).1 = .completionForm :=
  have h := handleSubmit_ineligible memStore utcHost (filledForm "Ana Pérez" "2015-01-01" "PE")
    ⟨storeU1, []⟩ ⟨2015, 0, 1⟩ rfl rfl (by decide) (by decide) (by decide) (by decide)
  ⟨h.1, h.2.2.1, h.2.2.2.1⟩

/-- Evaluation for C5: on a host behind UTC, the submission of the completion
state with the birth date `"2013-01-01"`, of calendar year 2013, is not
refused: the insert is called once with that birth date, the row is stored,
and the gate leaves the completion state with the stored row as owner
record. -/
theorem handleSubmit_behind_utc_inserts :
    render (filledForm "Ana Pérez" "2013-01-01" "PE") = .completionForm ∧
    (handleSubmit memStore limaHost (filledForm "Ana Pérez" "2013-01-01" "PE")
        ⟨storeU1, []⟩).2.calls =
      [Call.insertOwnerinfo ⟨"Ana Pérez", "2013-01-01", "PE", "u1"⟩, Call.getUser,
       Call.selectProfile "u1", Call.selectOwnerinfo "u1"] ∧
    insertCount (handleSubmit memStore limaHost (filledForm "Ana Pérez" "2013-01-01" "PE")
        ⟨storeU1, []⟩).2.calls = 1 ∧
    (handleSubmit memStore limaHost (filledForm "Ana Pérez" "2013-01-01" "PE")
        ⟨storeU1, []⟩).2.backend.ownerinfo =
      [rowOfForm ⟨"Ana Pérez", "2013-01-01", "PE", "u1"⟩] ∧
    (handleSubmit memStore limaHost (filledForm "Ana Pérez" "2013-01-01" "PE")
        ⟨storeU1, []⟩).1.ownerInfo = some (rowOfForm ⟨"Ana Pérez", "2013-01-01", "PE", "u1"⟩) ∧
    render (handleSubmit memStore limaHost (filledForm "Ana Pérez" "2013-01-01" "PE")
        ⟨storeU1, []⟩).1 = .contenido := by
  decide

/-- Counterexample to C6: on the sample host and store, the submission with
birth date `"not-a-date"` (which does not parse) reports no error at all and is
inserted as it stands; the gate ends with the inserted row as owner record. -/
theorem handleSubmit_invalid_date_counterexample :
    utcHost.parseDate "not-a-date" = none ∧
    handleSubmit memStore utcHost (filledForm "Ana Pérez" "not-a-date" "PE") ⟨storeU1, []⟩ =
      ({ filledForm "Ana Pérez" "not-a-date" "PE" with
           ownerInfo := some (rowOfForm ⟨"Ana Pérez", "not-a-date", "PE", "u1"⟩),
           formError := "" },
       { backend := { storeU1 with
                        ownerinfo := [rowOfForm ⟨"Ana Pérez", "not-a-date", "PE", "u1"⟩] },
         calls := [Call.insertOwnerinfo ⟨"Ana Pérez", "not-a-date", "PE", "u1"⟩,
                   Call.getUser, Call.selectProfile "u1", Call.selectOwnerinfo "u1"] }) := by
  decide

/-- C6 as amended: for a form whose name and nationality are not blank and
whose birth date is a non-empty string that does not parse to a date,
`handleSubmit` reports no validation error: its first call is the insert of the
form exactly as submitted, it makes that one insert only, and what follows is
what follows any accepted submission (the message of the insert error, or one
run of `fetchUserData`). -/
theorem handleSubmit_unparseable {σ : Type} (B : Backend σ) (host : Host) (s : State)
    (w : World σ)
    (hn : isBlank s.formData.nombresyapellidos = false)
    (hc : isBlank s.formData.nacionalidad = false)
    (hf : s.formData.fechadenacimiento ≠ "")
    (hparse : host.parseDate s.formData.fechadenacimiento = none) :
    handleSubmit B host s w =
      (match (w.insertOwnerinfo B s.formData).1 with
        | some insertError =>
          ({ s with formError := insertError.message }, (w.insertOwnerinfo B s.formData).2)
        | none =>
          fetchUserData B { s with formError := "" } (w.insertOwnerinfo B s.formData).2) ∧
    (handleSubmit B host s w).2.calls.take (w.calls.length + 1) =
      w.calls ++ [Call.insertOwnerinfo s.formData] ∧
    insertCount (handleSubmit B host s w).2.calls = insertCount w.calls + 1 := by
  have hy : jsGe ((host.parseDate s.formData.fechadenacimiento).map JsDate.fullYear) 2013
      = false := by
    simp [hparse, jsGe]
  have h := handleSubmit_filled B host s w hn hf hc
  rw [hy] at h
  simp only [Bool.false_eq_true, if_false] at h
  refine ⟨h, ?_, handleSubmit_insertCount_of_accept B host s w hn hf hc hy⟩
  obtain ⟨rest, h1, _⟩ := handleSubmit_calls_of_accept B host s w hn hf hc hy
  rw [h1, List.take_append]
  simp

/-- Witness of C6 as amended: the submission of the counterexample; its first
call is the insert of the unparseable date. -/
theorem handleSubmit_unparseable_witness :
    (handleSubmit memStore utcHost (filledForm "Ana Pérez" "not-a-date" "PE")
        ⟨storeU1, []⟩).2.calls.take 1 =
      [Call.insertOwnerinfo ⟨"Ana Pérez", "not-a-date", "PE", "u1"⟩] :=
  (handleSubmit_unparseable memStore utcHost (filledForm "Ana Pérez" "not-a-date" "PE")
    ⟨storeU1, []⟩ (by decide) (by decide) (by decide) (by decide)).2.1

/-- Counterexample to C7: user `u1` has no record, mounts the component, types
the three fields of the scenario and submits; the insert succeeds (the store
holds the new row, one insert in the log) but the lookup of the re-fetch fails,
and the gate ends with no owner record, the error shown and the completion form
rendered: it is not in the complete state. -/
theorem handleSubmit_complete_counterexample :
    (run (outageAfter memStore ⟨"Failed to fetch", none⟩) utcHost
        [.change .nombresyapellidos "Ana Pérez", .change .fechadenacimiento "2010-05-01",
         .change .nacionalidad "PE", .submit]
        (mount (outageAfter memStore ⟨"Failed to fetch", none⟩) 13 ⟨(storeU1, 1), []⟩)).map
      (fun c => (insertCount c.2.calls, c.2.backend.1.ownerinfo, c.1.ownerInfo, c.1.formError,
        render c.1))
    = some (1, [rowOfForm ⟨"Ana Pérez", "2010-05-01", "PE", "u1"⟩], none, "Failed to fetch",
        View.completionForm) := by
  decide

/-- C7 as amended: for a form whose name and nationality are not blank and
whose birth date parses to a date of year before 2013, when the insert
succeeds `handleSubmit` is that one insert followed by one run of
`fetchUserData` (one more insert and one more `getUser` in the log), and the
gate ends in the state that run decides: when the re-fetch gets the user, the
profile and the record `r`, the owner record is `r`, loading is false and the
normal content is rendered. -/
theorem handleSubmit_success {σ : Type} (B : Backend σ) (host : Host) (s : State)
    (w : World σ) (d : JsDate) (b1 : σ)
    (hn : isBlank s.formData.nombresyapellidos = false)
    (hc : isBlank s.formData.nacionalidad = false)
    (hparse : host.parseDate s.formData.fechadenacimiento = some d)
    (hyear : d.fullYear < 2013)
    (hins : B.insertOwnerinfo s.formData w.backend = (none, b1)) :
    handleSubmit B host s w =
      fetchUserData B { s with formError := "" }
        { backend := b1, calls := w.calls ++ [Call.insertOwnerinfo s.formData] } ∧
    insertCount (handleSubmit B host s w).2.calls = insertCount w.calls + 1 ∧
    getUserCount (handleSubmit B host s w).2.calls = getUserCount w.calls + 1 ∧
    (∀ (u : User) (p : Option Profile) (r : OwnerRow) (b2 b3 b4 : σ),
      B.getUser b1 = ({ user := some u, error := none }, b2) →
      B.selectProfile u.id b2 = ({ data := p, error := none }, b3) →
      B.selectOwnerinfo u.id b3 = ({ data := some r, error := none }, b4) →
      handleSubmit B host s w =
        ({ s with userProfile := p, ownerInfo := some r, loading := false, formError := "" },
         { backend := b4,
           calls := w.calls ++ [Call.insertOwnerinfo s.formData, Call.getUser,
             Call.selectProfile u.id, Call.selectOwnerinfo u.id] }) ∧
      render (handleSubmit B host s w).1 = .contenido) := by
  have hf := ne_empty_of_parse host _ d hparse
  have hy : jsGe ((host.parseDate s.formData.fechadenacimiento).map JsDate.fullYear) 2013
      = false := by
    simp [hparse, jsGe, hyear]
  have h : handleSubmit B host s w =
      fetchUserData B { s with formError := "" }
        { backend := b1, calls := w.calls ++ [Call.insertOwnerinfo s.formData] } := by
    rw [handleSubmit_filled B host s w hn hf hc, hy]
    simp [World.insertOwnerinfo, hins]
  refine ⟨h, ?_, ?_, ?_⟩
  · exact handleSubmit_insertCount_of_accept B host s w hn hf hc hy
  · rw [h]
    obtain ⟨rest, h1, _, h3⟩ := fetchUserData_calls B { s with formError := "" }
      { backend := b1, calls := w.calls ++ [Call.insertOwnerinfo s.formData] }
    rw [h1, getUserCount_append, getUserCount_append, h3]
    simp [getUserCount]
  · intro u p r b2 b3 b4 hauth hprof hown
    rw [h, fetchUserData_found B _ _ u p r b2 b3 b4 hauth hprof hown]
    refine ⟨by simp, ?_⟩
    simp [render]

/-- Witness of C7 as amended: the scenario of the specification on the sample
store, which reads back what was inserted. -/
theorem handleSubmit_success_witness :
    handleSubmit memStore utcHost (filledForm "Ana Pérez" "2010-05-01" "PE") ⟨storeU1, []⟩ =
      ({ filledForm "Ana Pérez" "2010-05-01" "PE" with
           ownerInfo := some (rowOfForm ⟨"Ana Pérez", "2010-05-01", "PE", "u1"⟩) },
       { backend := storeU1Complete,
         calls := [Call.insertOwnerinfo ⟨"Ana Pérez", "2010-05-01", "PE", "u1"⟩,
                   Call.getUser, Call.selectProfile "u1", Call.selectOwnerinfo "u1"] }) :=
  ((handleSubmit_success memStore utcHost (filledForm "Ana Pérez" "2010-05-01" "PE")
      ⟨storeU1, []⟩ ⟨2010, 4, 1⟩ storeU1Complete
      (by decide) (by decide) (by decide) (by decide) rfl).2.2.2
    ⟨"u1"⟩ (some { user_id := "u1", name := "Ana", avatar_url := none })
    (rowOfForm ⟨"Ana Pérez", "2010-05-01", "PE", "u1"⟩) _ _ _ rfl rfl rfl).1

/-- C8: in the completion state, for a submission that passes both checks
(name and nationality not blank, birth date present and not of year 2013 or
later), when the insert answers the error `err`, `handleSubmit` sets the form
error to the message of `err`, makes no other call (no re-fetch: no `getUser`),
and leaves the owner record null, loading false and the form data as
submitted. -/
theorem handleSubmit_insert_error {σ : Type} (B : Backend σ) (host : Host) (s : State)
    (w : World σ) (err : JsError) (b1 : σ)
    (hload : s.loading = false) (hown : s.ownerInfo = none)
    (hn : isBlank s.formData.nombresyapellidos = false)
    (hc : isBlank s.formData.nacionalidad = false)
    (hf : s.formData.fechadenacimiento ≠ "")
    (hyear : ∀ d, host.parseDate s.formData.fechadenacimiento = some d → d.fullYear < 2013)
    (hins : B.insertOwnerinfo s.formData w.backend = (some err, b1)) :
    handleSubmit B host s w =
      ({ s with formError := err.message },
       { backend := b1, calls := w.calls ++ [Call.insertOwnerinfo s.formData] }) ∧
    (handleSubmit B host s w).1.formError = err.message ∧
    getUserCount (handleSubmit B host s w).2.calls = getUserCount w.calls ∧
    render (handleSubmit B host s w).1 = .completionForm ∧
    (handleSubmit B host s w).1.ownerInfo = none ∧
    (handleSubmit B host s w).1.loading = false ∧
    (handleSubmit B host s w).1.formData = s.formData := by
  have hy : jsGe ((host.parseDate s.formData.fechadenacimiento).map JsDate.fullYear) 2013
      = false := by
    cases hp : host.parseDate s.formData.fechadenacimiento with
    | none => rfl
    | some d =>
      have := hyear d hp
      simp [jsGe, this]
  have h : handleSubmit B host s w =
      ({ s with formError := err.message },
       { backend := b1, calls := w.calls ++ [Call.insertOwnerinfo s.formData] }) := by
    rw [handleSubmit_filled B host s w hn hf hc, hy]
    simp [World.insertOwnerinfo, hins]
  rw [h]
  refine ⟨rfl, rfl, ?_, ?_, hown, hload, rfl⟩
  · simp [getUserCount]
  · simp [render, hload, hown]

/-- Witness of C8: the sample store refusing the insert with a duplicate-key
error. -/
theorem handleSubmit_insert_error_witness :
    (handleSubmit (refusingInserts memStore ⟨"duplicate key value", some "23505"⟩) utcHost
        (filledForm "Ana Pérez" "2010-05-01" "PE") ⟨storeU1, []⟩).1.formError
      = "duplicate key value" ∧
    (handleSubmit (refusingInserts memStore ⟨"duplicate key value", some "23505"⟩) utcHost
        (filledForm "Ana Pérez" "2010-05-01" "PE") ⟨storeU1, []⟩).1.formData
      = ⟨"Ana Pérez", "2010-05-01", "PE", "u1"⟩ :=
  have h := handleSubmit_insert_error
    (refusingInserts memStore ⟨"duplicate key value", some "23505"⟩)
    utcHost (filledForm "Ana Pérez" "2010-05-01" "PE") ⟨storeU1, []⟩
    ⟨"duplicate key value", some "23505"⟩ storeU1 rfl rfl (by decide) (by decide) (by decide)
    (fun d hd => by
      have h2 : utcHost.parseDate "2010-05-01" = some ⟨2010, 4, 1⟩ := by decide
      have h3 : some (⟨2010, 4, 1⟩ : JsDate) = some d := h2.symm.trans hd
      cases h3
      decide)
    rfl
  ⟨h.2.1, h.2.2.2.2.2.2⟩

/-- C9: when `getUser` answers a user without error, the profile query answers
without error, and the lookup on `ownerinfo` answers no data with either no
error or an error of code `PGRST116`, `fetchUserData` ends with loading false,
the owner record null, the form error empty and the `uuid` of the form set to
the id of the user: the completion form is rendered. -/
theorem fetchUserData_needs_completion {σ : Type} (B : Backend σ) (s : State) (w : World σ)
    (u : User) (p : Option Profile) (e : Option JsError) (b1 b2 b3 : σ)
    (hauth : B.getUser w.backend = ({ user := some u, error := none }, b1))
    (hprof : B.selectProfile u.id b1 = ({ data := p, error := none }, b2))
    (hown : B.selectOwnerinfo u.id b2 = ({ data := none, error := e }, b3))
    (hcode : ∀ err, e = some err → err.code = some "PGRST116") :
    fetchUserData B s w =
      ({ s with userProfile := p, ownerInfo := none, loading := false, formError := "",
                formData := { s.formData with uuid := u.id } },
       { backend := b3,
         calls := w.calls ++
           [Call.getUser, Call.selectProfile u.id, Call.selectOwnerinfo u.id] }) ∧
    render (fetchUserData B s w).1 = .completionForm ∧
    (fetchUserData B s w).1.loading = false ∧
    (fetchUserData B s w).1.ownerInfo = none ∧
    (fetchUserData B s w).1.formError = "" ∧
    (fetchUserData B s w).1.formData.uuid = u.id := by
  have hfilter : e.filter (fun err => decide (err.code ≠ some "PGRST116")) = none := by
    cases e with
    | none => rfl
    | some err => simp [Option.filter, hcode err rfl]
  have h : fetchUserData B s w =
      ({ s with userProfile := p, ownerInfo := none, loading := false, formError := "",
                formData := { s.formData with uuid := u.id } },
       { backend := b3,
         calls := w.calls ++
           [Call.getUser, Call.selectProfile u.id, Call.selectOwnerinfo u.id] }) := by
    simp only [fetchUserData, World.getUser, World.selectProfile, World.selectOwnerinfo,
      hauth, hprof, hown, hfilter, List.append_assoc, List.singleton_append, List.cons_append,
      List.nil_append]
  rw [h]
  exact ⟨rfl, by simp [render], rfl, rfl, rfl, rfl⟩

/-- Witness of C9: mounting on the sample store, where `u1` has no record and
the lookup answers `PGRST116`. -/
theorem fetchUserData_needs_completion_witness :
    render (fetchUserData memStore initialState ⟨storeU1, []⟩).1 = .completionForm ∧
    (fetchUserData memStore initialState ⟨storeU1, []⟩).1.formError = "" ∧
    (fetchUserData memStore initialState ⟨storeU1, []⟩).1.formData.uuid = "u1" :=
  have h := fetchUserData_needs_completion memStore initialState ⟨storeU1, []⟩ ⟨"u1"⟩
    (some { user_id := "u1", name := "Ana", avatar_url := none })
    (some { message := "JSON object requested, multiple (or no) rows returned",
            code := some "PGRST116" })
    storeU1 storeU1 storeU1 rfl rfl rfl (fun err he => by cases he; rfl)
  ⟨h.2.1, h.2.2.2.2.1, h.2.2.2.2.2⟩

/-- C10: (1) when the user and the profile are fetched and the lookup answers
the record `r`, mounting takes the gate from the loading state straight to the
complete state: owner record `r`, loading false, normal content rendered, and
the only calls made are the three reads; (2) in every state with an owner
record the completion form is not rendered and the submit event cannot be
raised; (3) from a state with an owner record, every sequence of events keeps
the record and adds no insert to the log. -/
theorem gate_complete {σ : Type} (B : Backend σ) (host : Host) :
    (∀ (hour : Nat) (w : World σ) (u : User) (p : Option Profile) (r : OwnerRow) (b1 b2 b3 : σ),
      B.getUser w.backend = ({ user := some u, error := none }, b1) →
      B.selectProfile u.id b1 = ({ data := p, error := none }, b2) →
      B.selectOwnerinfo u.id b2 = ({ data := some r, error := none }, b3) →
      render initialState = .cargando ∧
      (mount B hour w).1.ownerInfo = some r ∧
      (mount B hour w).1.loading = false ∧
      render (mount B hour w).1 = .contenido ∧
      (mount B hour w).2.calls =
        w.calls ++ [Call.getUser, Call.selectProfile u.id, Call.selectOwnerinfo u.id]) ∧
    (∀ s : State, s.ownerInfo ≠ none →
      render s ≠ .completionForm ∧ ∀ w : World σ, step B host .submit (s, w) = none) ∧
    (∀ (events : List Event) (c c2 : State × World σ), c.1.ownerInfo ≠ none →
      run B host events c = some c2 →
      c2.1.ownerInfo = c.1.ownerInfo ∧ insertCount c2.2.calls = insertCount c.2.calls) := by
  refine ⟨?_, ?_, ?_⟩
  · intro hour w u p r b1 b2 b3 hauth hprof hown
    have h := fetchUserData_found B initialState w u p r b1 b2 b3 hauth hprof hown
    refine ⟨by decide, ?_, ?_, ?_, ?_⟩ <;> simp [mount, h, render]
  · intro s hs
    have hr := render_of_ownerInfo s hs
    refine ⟨hr, fun w => ?_⟩
    unfold step
    cases hv : render s with
    | completionForm => exact absurd hv hr
    | cargando => rfl
    | contenido => rfl
  · intro events
    induction events with
    | nil =>
      intro c c2 _ hrun
      simp only [run] at hrun
      cases hrun
      exact ⟨rfl, rfl⟩
    | cons e es ih =>
      intro c c2 hc hrun
      simp only [run] at hrun
      cases hstep : step B host e c with
      | none => rw [hstep] at hrun; exact Option.noConfusion hrun
      | some c1 =>
        rw [hstep] at hrun
        simp only [Option.some_bind] at hrun
        obtain ⟨h1, h2⟩ := step_of_ownerInfo B host e c c1 hc hstep
        have hc1 : c1.1.ownerInfo ≠ none := by rw [h1]; exact hc
        obtain ⟨h3, h4⟩ := ih c1 c2 hc1 hrun
        exact ⟨h3.trans h1, h4.trans h2⟩

/-- Witness of C10: mounting on a store where `u1` already has a record renders
the normal content, and the submit event cannot be raised there. -/
theorem gate_complete_witness :
    render (mount memStore 13 ⟨storeU1Complete, []⟩).1 = .contenido ∧
    step memStore utcHost .submit (mount memStore 13 ⟨storeU1Complete, []⟩) = none :=
  ⟨((gate_complete memStore utcHost).1 13 ⟨storeU1Complete, []⟩ ⟨"u1"⟩
      (some { user_id := "u1", name := "Ana", avatar_url := none })
      (rowOfForm ⟨"Ana Pérez", "2010-05-01", "PE", "u1"⟩) storeU1Complete storeU1Complete
      storeU1Complete rfl rfl rfl).2.2.2.1,
   ((gate_complete memStore utcHost).2.1 (mount memStore 13 ⟨storeU1Complete, []⟩).1
      (by decide)).2 _⟩

/-! # Statements about the failure path and the stored record -/

/-- After the `catch` block the completion form is rendered. -/
theorem render_fetchFailed (s : State) (err : JsError) :
    render (fetchFailed s err) = .completionForm := by
  simp [render, fetchFailed]

/-- Counterexample to C11: nobody is signed in, the lookup fails with
"No hay usuario logueado", and the component renders the completion form, on
which the submit event can be raised. -/
theorem fetchUserData_error_counterexample :
    (mount memStore 13 ⟨storeNoSession, []⟩).1.formError = "No hay usuario logueado" ∧
    render (mount memStore 13 ⟨storeNoSession, []⟩).1 = .completionForm ∧
    (step memStore utcHost .submit (mount memStore 13 ⟨storeNoSession, []⟩)).isSome = true := by
  decide

/-- C11 as amended: when `getUser` answers an error or no user, when the
profile query answers an error, or when the lookup on `ownerinfo` answers an
error whose code is not `PGRST116`, `fetchUserData` ends in the `catch` state:
loading false, owner record and profile null, form error set to the message of
the failure. That state is not the complete state; the component has no error
view of its own and renders it as the completion form. -/
theorem fetchUserData_failure {σ : Type} (B : Backend σ) (s : State) (w : World σ) :
    (∀ (auth : AuthResp) (b1 : σ), B.getUser w.backend = (auth, b1) →
      (auth.error ≠ none ∨ auth.user = none) →
      fetchUserData B s w =
        (fetchFailed s { message := "No hay usuario logueado", code := none },
         { backend := b1, calls := w.calls ++ [Call.getUser] })) ∧
    (∀ (u : User) (b1 : σ) (pr : SingleResp Profile) (err : JsError) (b2 : σ),
      B.getUser w.backend = ({ user := some u, error := none }, b1) →
      B.selectProfile u.id b1 = (pr, b2) → pr.error = some err →
      fetchUserData B s w =
        (fetchFailed s err,
         { backend := b2, calls := w.calls ++ [Call.getUser, Call.selectProfile u.id] })) ∧
    (∀ (u : User) (b1 : σ) (p : Option Profile) (b2 : σ) (own : SingleResp OwnerRow)
        (err : JsError) (b3 : σ),
      B.getUser w.backend = ({ user := some u, error := none }, b1) →
      B.selectProfile u.id b1 = ({ data := p, error := none }, b2) →
      B.selectOwnerinfo u.id b2 = (own, b3) → own.error = some err →
      err.code ≠ some "PGRST116" →
      fetchUserData B s w =
        (fetchFailed s err,
         { backend := b3,
           calls := w.calls ++
             [Call.getUser, Call.selectProfile u.id, Call.selectOwnerinfo u.id] })) ∧
    (∀ (s0 : State) (err : JsError),
      (fetchFailed s0 err).loading = false ∧ (fetchFailed s0 err).ownerInfo = none ∧
      (fetchFailed s0 err).userProfile = none ∧ (fetchFailed s0 err).formError = err.message ∧
      render (fetchFailed s0 err) ≠ .contenido ∧
      render (fetchFailed s0 err) = .completionForm) := by
  refine ⟨?_, ?_, ?_, ?_⟩
  · intro auth b1 hauth hbad
    obtain ⟨au, ae⟩ := auth
    cases ae with
    | some e => simp [fetchUserData, World.getUser, hauth, fetchFailed]
    | none =>
      cases au with
      | none => simp [fetchUserData, World.getUser, hauth, fetchFailed]
      | some u => simp at hbad
  · intro u b1 pr err b2 hauth hprof herr
    obtain ⟨pd, pe⟩ := pr
    simp only at herr
    subst herr
    simp [fetchUserData, World.getUser, World.selectProfile, hauth, hprof, fetchFailed]
  · intro u b1 p b2 own err b3 hauth hprof hown herr hcode
    obtain ⟨od, oe⟩ := own
    simp only at herr
    subst herr
    have hfilter : (some err).filter (fun e => decide (e.code ≠ some "PGRST116")) = some err := by
      simp [Option.filter, hcode]
    simp only [fetchUserData, World.getUser, World.selectProfile, World.selectOwnerinfo,
      hauth, hprof, hown, hfilter, fetchFailed, List.append_assoc, List.singleton_append,
      List.cons_append, List.nil_append]
  · intro s0 err
    have h := render_fetchFailed s0 err
    refine ⟨rfl, rfl, rfl, rfl, ?_, h⟩
    rw [h]
    exact fun hc => View.noConfusion hc

/-- Witness of C11 as amended: mounting with nobody signed in. -/
theorem fetchUserData_failure_witness :
    fetchUserData memStore initialState ⟨storeNoSession, []⟩ =
      (fetchFailed initialState { message := "No hay usuario logueado", code := none },
       { backend := storeNoSession, calls := [] ++ [Call.getUser] }) :=
  (fetchUserData_failure memStore initialState ⟨storeNoSession, []⟩).1
    { user := none, error := some { message := "Auth session missing!", code := none } }
    storeNoSession rfl (Or.inl (by decide))

/-- A log without inserts holds no insert. -/
theorem not_mem_of_insertCount_eq_zero (rest : List Call) (row : FormData)
    (h : insertCount rest = 0) : Call.insertOwnerinfo row ∉ rest := by
  intro hmem
  have hpos : 0 < insertCount rest := by
    unfold insertCount
    exact List.length_pos_of_mem (List.mem_filter.mpr ⟨hmem, rfl⟩)
  omega

/-- The calls of one `handleSubmit`: none at all, or, for a form that passes
both checks, the insert of the form as it stands followed by calls that are
not inserts. -/
theorem handleSubmit_calls_cases {σ : Type} (B : Backend σ) (host : Host) (s : State)
    (w : World σ) :
    (handleSubmit B host s w).2 = w ∨
    (isBlank s.formData.nombresyapellidos = false ∧ s.formData.fechadenacimiento ≠ "" ∧
      isBlank s.formData.nacionalidad = false ∧
      jsGe ((host.parseDate s.formData.fechadenacimiento).map JsDate.fullYear) 2013 = false ∧
      ∃ rest, (handleSubmit B host s w).2.calls =
        w.calls ++ Call.insertOwnerinfo s.formData :: rest ∧ insertCount rest = 0) := by
  by_cases hcond : jsTrim s.formData.nombresyapellidos = "" ∨ s.formData.fechadenacimiento = "" ∨
      jsTrim s.formData.nacionalidad = ""
  · left
    simp only [handleSubmit]
    rw [if_pos hcond]
  · have hn : isBlank s.formData.nombresyapellidos = false := by
      cases hb : isBlank s.formData.nombresyapellidos with
      | false => rfl
      | true => exact absurd (Or.inl ((jsTrim_eq_empty_iff _).mpr hb)) hcond
    have hf : s.formData.fechadenacimiento ≠ "" := fun h => hcond (Or.inr (Or.inl h))
    have hc : isBlank s.formData.nacionalidad = false := by
      cases hb : isBlank s.formData.nacionalidad with
      | false => rfl
      | true => exact absurd (Or.inr (Or.inr ((jsTrim_eq_empty_iff _).mpr hb))) hcond
    cases hy : jsGe ((host.parseDate s.formData.fechadenacimiento).map JsDate.fullYear) 2013 with
    | true =>
      left
      rw [handleSubmit_filled B host s w hn hf hc, if_pos hy]
    | false =>
      right
      exact ⟨hn, hf, hc, rfl, handleSubmit_calls_of_accept B host s w hn hf hc hy⟩

/-- Evaluation for C12: user `u1` is signed in but has no profile row, so the
lookup fails before the owner lookup and `uuid` is never prefilled; the form is
rendered all the same, and submitting it calls the insert with the empty
owner identifier. -/
theorem handleSubmit_empty_uuid :
    (run memStore utcHost
        [.change .nombresyapellidos "Ana Pérez", .change .fechadenacimiento "2010-05-01",
         .change .nacionalidad "PE", .submit]
        (mount memStore 13 ⟨storeNoProfile, []⟩)).map (fun c => c.2.calls)
    = some [Call.getUser, Call.selectProfile "u1",
        Call.insertOwnerinfo ⟨"Ana Pérez", "2010-05-01", "PE", ""⟩,
        Call.getUser, Call.selectProfile "u1"] := by
  decide

/-- Counterexample to C13: the name and the nationality are submitted with
surrounding spaces and are inserted with them. -/
theorem handleSubmit_trim_counterexample :
    (handleSubmit memStore utcHost (filledForm "  Ana Pérez " "2010-05-01" " PE")
        ⟨storeU1, []⟩).2.calls.take 1 =
      [Call.insertOwnerinfo ⟨"  Ana Pérez ", "2010-05-01", " PE", "u1"⟩] ∧
    jsTrim "  Ana Pérez " = "Ana Pérez" ∧ jsTrim " PE" = "PE" := by
  decide

/-- C13 as amended: every record that `handleSubmit` passes to the insert is
the form exactly as submitted, without trimming; its name and nationality are
not blank (non-empty after trimming) and its birth date is not empty. -/
theorem handleSubmit_inserts_form {σ : Type} (B : Backend σ) (host : Host) (s : State)
    (w : World σ) (row : FormData)
    (hrow : Call.insertOwnerinfo row ∈ (handleSubmit B host s w).2.calls.drop w.calls.length) :
    row = s.formData ∧
    jsTrim row.nombresyapellidos ≠ "" ∧ jsTrim row.nacionalidad ≠ "" ∧
    row.fechadenacimiento ≠ "" := by
  rcases handleSubmit_calls_cases B host s w with h | ⟨hn, hf, hc, _, rest, hcalls, hrest⟩
  · rw [h] at hrow
    simp at hrow
  · rw [hcalls] at hrow
    simp only [List.drop_left] at hrow
    have hrow2 : row = s.formData := by
      rcases List.mem_cons.mp hrow with h1 | h1
      · cases h1
        rfl
      · exact absurd h1 (not_mem_of_insertCount_eq_zero rest row hrest)
    subst hrow2
    refine ⟨rfl, ?_, ?_, hf⟩
    · intro h
      rw [jsTrim_eq_empty_iff, hn] at h
      exact Bool.noConfusion h
    · intro h
      rw [jsTrim_eq_empty_iff, hc] at h
      exact Bool.noConfusion h

/-- Witness of C13 as amended: the submission of the counterexample. -/
theorem handleSubmit_inserts_form_witness :
    (⟨"  Ana Pérez ", "2010-05-01", " PE", "u1"⟩ : FormData) =
      (filledForm "  Ana Pérez " "2010-05-01" " PE").formData ∧
    jsTrim "  Ana Pérez " ≠ "" :=
  have h := handleSubmit_inserts_form memStore utcHost
    (filledForm "  Ana Pérez " "2010-05-01" " PE") ⟨storeU1, []⟩
    ⟨"  Ana Pérez ", "2010-05-01", " PE", "u1"⟩ (by decide)
  ⟨h.1, h.2.1⟩

/-- Counterexample to C14: with the current date 2012-01-01, the birth date
2012-06-01 lies in the future and the submission is inserted. -/
theorem handleSubmit_future_counterexample :
    utcHost.parseDate "2012-06-01" = some ⟨2012, 5, 1⟩ ∧
    isAfter ⟨2012, 5, 1⟩ ⟨2012, 0, 1⟩ = true ∧
    (handleSubmit memStore utcHost (filledForm "Ana Pérez" "2012-06-01" "PE")
        ⟨storeU1, []⟩).2.calls.take 1 =
      [Call.insertOwnerinfo ⟨"Ana Pérez", "2012-06-01", "PE", "u1"⟩] := by
  decide

/-- C14 as amended: when the current date is in year 2013 or later, every
submission whose birth date parses to a date after the current date is
rejected: `handleSubmit` calls nothing (no insert) and sets the missing-field
or the ineligibility message. -/
theorem handleSubmit_future {σ : Type} (B : Backend σ) (host : Host) (s : State)
    (w : World σ) (hoy d : JsDate)
    (hparse : host.parseDate s.formData.fechadenacimiento = some d)
    (hafter : isAfter d hoy = true) (hnow : 2013 ≤ hoy.fullYear) :
    (handleSubmit B host s w).2 = w ∧
    insertCount (handleSubmit B host s w).2.calls = insertCount w.calls ∧
    ((handleSubmit B host s w).1.formError = missingFieldMessage ∨
      (handleSubmit B host s w).1.formError = ineligibleMessage) := by
  have hyear : 2013 ≤ d.fullYear := by
    simp only [isAfter, decide_eq_true_eq] at hafter
    rcases hafter with h | ⟨h, _⟩ <;> omega
  have hf := ne_empty_of_parse host _ d hparse
  by_cases hcond : jsTrim s.formData.nombresyapellidos = "" ∨ s.formData.fechadenacimiento = "" ∨
      jsTrim s.formData.nacionalidad = ""
  · have h : handleSubmit B host s w = ({ s with formError := missingFieldMessage }, w) := by
      simp only [handleSubmit]
      rw [if_pos hcond]
    rw [h]
    exact ⟨rfl, rfl, Or.inl rfl⟩
  · have hn : isBlank s.formData.nombresyapellidos = false := by
      cases hb : isBlank s.formData.nombresyapellidos with
      | false => rfl
      | true => exact absurd (Or.inl ((jsTrim_eq_empty_iff _).mpr hb)) hcond
    have hc : isBlank s.formData.nacionalidad = false := by
      cases hb : isBlank s.formData.nacionalidad with
      | false => rfl
      | true => exact absurd (Or.inr (Or.inr ((jsTrim_eq_empty_iff _).mpr hb))) hcond
    have hy : jsGe ((host.parseDate s.formData.fechadenacimiento).map JsDate.fullYear) 2013
        = true := by
      simp [hparse, jsGe, hyear]
    have h : handleSubmit B host s w = ({ s with formError := ineligibleMessage }, w) := by
      rw [handleSubmit_filled B host s w hn hf hc, if_pos hy]
    rw [h]
    exact ⟨rfl, rfl, Or.inr rfl⟩

/-- Witness of C14 as amended: on 2024-04-30 the birth date 2030-01-01 is
rejected. -/
theorem handleSubmit_future_witness :
    (handleSubmit memStore utcHost (filledForm "Ana Pérez" "2030-01-01" "PE")
        ⟨storeU1, []⟩).2 = ⟨storeU1, []⟩ :=
  (handleSubmit_future memStore utcHost (filledForm "Ana Pérez" "2030-01-01" "PE")
    ⟨storeU1, []⟩ ⟨2024, 3, 30⟩ ⟨2030, 0, 1⟩ (by decide) (by decide) (by decide)).1

/-- Counterexample to C15: on a store that is a plain collection, user `u1`
(no record) submits, the insert succeeds, the lookup of the re-fetch fails, the
form is rendered again and is submitted again: the store ends with two rows
for `u1`. -/
theorem run_duplicate_counterexample :
    (run (outageAfter memStore ⟨"Failed to fetch", none⟩) utcHost
        [.change .nombresyapellidos "Ana Pérez", .change .fechadenacimiento "2010-05-01",
         .change .nacionalidad "PE", .submit, .submit]
        (mount (outageAfter memStore ⟨"Failed to fetch", none⟩) 13 ⟨(storeU1, 1), []⟩)).map
      (fun c => c.2.backend.1.ownerinfo.map fun r => r.uuid)
    = some ["u1", "u1"] ∧
    atMostOnePerOwner storeU1.ownerinfo ∧ ¬ (["u1", "u1"] : List String).Nodup := by
  refine ⟨by decide, ?_, by decide⟩
  simp [atMostOnePerOwner, storeU1]

/-! # Statements about the collection of owner records -/

/-- The completion form is rendered only in a state without an owner record. -/
theorem ownerInfo_of_completionForm (s : State) (h : render s = .completionForm) :
    s.ownerInfo = none := by
  unfold render at h
  split at h
  · exact View.noConfusion h
  · split at h
    · rename_i hnone
      exact Option.isNone_iff_eq_none.mp hnone
    · exact View.noConfusion h

/-- The lookups of `fetchUserData` leave a plain collection as it is. -/
theorem fetchUserData_rows {σ : Type} (B : Backend σ) (rows : σ → List OwnerRow)
    (hcoll : PlainCollection B rows) (s : State) (w : World σ) :
    rows (fetchUserData B s w).2.backend = rows w.backend := by
  simp only [fetchUserData]
  split
  · split
    · simp [World.getUser, World.selectProfile, hcoll.getUser, hcoll.selectProfile]
    · split
      · simp [World.getUser, World.selectProfile, World.selectOwnerinfo, hcoll.getUser,
          hcoll.selectProfile, hcoll.selectOwnerinfo]
      · split <;>
          simp [World.getUser, World.selectProfile, World.selectOwnerinfo, hcoll.getUser,
            hcoll.selectProfile, hcoll.selectOwnerinfo]
  · simp [World.getUser, hcoll.getUser]

/-- One run of `fetchUserData` over a plain collection whose lookup does not
answer not-found wrongly: when the collection holds no record for the owner
identifier of the form, the state after the run holds a record or its form
carries an owner identifier without a record. -/
theorem fetchUserData_formOwnerFree {σ : Type} (B : Backend σ) (rows : σ → List OwnerRow)
    (hcoll : PlainCollection B rows) (hnf : NotFoundIsRight B rows) (s : State) (w : World σ)
    (h1 : atMostOnePerOwner (rows w.backend))
    (h2 : ∀ r ∈ rows w.backend, r.uuid ≠ s.formData.uuid) :
    formOwnerFree rows (fetchUserData B s w) := by
  refine ⟨by rw [fetchUserData_rows B rows hcoll]; exact h1, ?_⟩
  intro hnone r hr
  rw [fetchUserData_rows B rows hcoll] at hr
  revert hnone
  simp only [fetchUserData]
  split
  · rename_i user _ _
    split
    · intro _
      exact h2 r hr
    · split
      · intro _
        exact h2 r hr
      · rename_i hfilter
        split
        · intro hnone
          simp at hnone
        · rename_i hdata
          intro _
          have hb : rows ((w.getUser B).2.selectProfile B user.id).2.backend = rows w.backend := by
            simp [World.getUser, World.selectProfile, hcoll.getUser, hcoll.selectProfile]
          have h := hnf user.id ((w.getUser B).2.selectProfile B user.id).2.backend
            (by rw [hb]; exact h1) hdata hfilter r (by rw [hb]; exact hr)
          exact h
  · intro _
    exact h2 r hr

/-- One submission from the completion form over a plain collection keeps the
invariant, provided the submission reads back what it wrote. -/
theorem handleSubmit_formOwnerFree {σ : Type} (B : Backend σ) (rows : σ → List OwnerRow)
    (hcoll : PlainCollection B rows) (host : Host) (c : State × World σ)
    (hinv : formOwnerFree rows c) (hown : c.1.ownerInfo = none)
    (hrb : readsBackAt B host c) :
    formOwnerFree rows (handleSubmit B host c.1 c.2) := by
  obtain ⟨hnodup, hfree⟩ := hinv
  by_cases hcond : jsTrim c.1.formData.nombresyapellidos = "" ∨
      c.1.formData.fechadenacimiento = "" ∨ jsTrim c.1.formData.nacionalidad = ""
  · have h : handleSubmit B host c.1 c.2 = ({ c.1 with formError := missingFieldMessage }, c.2) := by
      simp only [handleSubmit]
      rw [if_pos hcond]
    rw [h]
    exact ⟨hnodup, fun _ => hfree hown⟩
  · have hn : isBlank c.1.formData.nombresyapellidos = false := by
      cases hb : isBlank c.1.formData.nombresyapellidos with
      | false => rfl
      | true => exact absurd (Or.inl ((jsTrim_eq_empty_iff _).mpr hb)) hcond
    have hf : c.1.formData.fechadenacimiento ≠ "" := fun h => hcond (Or.inr (Or.inl h))
    have hc : isBlank c.1.formData.nacionalidad = false := by
      cases hb : isBlank c.1.formData.nacionalidad with
      | false => rfl
      | true => exact absurd (Or.inr (Or.inr ((jsTrim_eq_empty_iff _).mpr hb))) hcond
    cases hy : jsGe ((host.parseDate c.1.formData.fechadenacimiento).map JsDate.fullYear) 2013 with
    | true =>
      rw [handleSubmit_filled B host c.1 c.2 hn hf hc, if_pos hy]
      exact ⟨hnodup, fun _ => hfree hown⟩
    | false =>
      have hcount := handleSubmit_insertCount_of_accept B host c.1 c.2 hn hf hc hy
      cases hins : (B.insertOwnerinfo c.1.formData c.2.backend).1 with
      | some err =>
        have h : handleSubmit B host c.1 c.2 =
            ({ c.1 with formError := err.message }, (c.2.insertOwnerinfo B c.1.formData).2) := by
          rw [handleSubmit_filled B host c.1 c.2 hn hf hc, hy]
          simp [World.insertOwnerinfo, hins]
        have hrows : rows (c.2.insertOwnerinfo B c.1.formData).2.backend = rows c.2.backend :=
          hcoll.insertRefused _ _ err hins
        rw [h]
        refine ⟨?_, ?_⟩
        · show atMostOnePerOwner (rows (c.2.insertOwnerinfo B c.1.formData).2.backend)
          rw [hrows]
          exact hnodup
        · intro _ r hr
          have hr2 : r ∈ rows (c.2.insertOwnerinfo B c.1.formData).2.backend := hr
          rw [hrows] at hr2
          exact hfree hown r hr2
      | none =>
        have hsome := hrb hcount hins
        have h : handleSubmit B host c.1 c.2 =
            fetchUserData B { c.1 with formError := "" } (c.2.insertOwnerinfo B c.1.formData).2 := by
          rw [handleSubmit_filled B host c.1 c.2 hn hf hc, hy]
          simp [World.insertOwnerinfo, hins]
        obtain ⟨r, hr, hrows⟩ := hcoll.insertDone _ _ hins
        refine ⟨?_, fun hnone => absurd hnone hsome⟩
        rw [h, fetchUserData_rows B rows hcoll]
        show atMostOnePerOwner (rows (B.insertOwnerinfo c.1.formData c.2.backend).2)
        rw [hrows]
        unfold atMostOnePerOwner
        rw [List.map_append, List.nodup_append]
        refine ⟨hnodup, by simp, ?_⟩
        intro id hid1 hid2
        obtain ⟨r1, hr1, hr1id⟩ := List.mem_map.mp hid1
        have hid : id = c.1.formData.uuid := by
          simp at hid2
          rw [hid2, hr]
        exact hfree hown r1 hr1 (by rw [hr1id, hid])

/-- One event handled over a plain collection keeps the invariant, provided
that, when the event is a submission, it reads back what it wrote. -/
theorem step_formOwnerFree {σ : Type} (B : Backend σ) (rows : σ → List OwnerRow)
    (hcoll : PlainCollection B rows) (host : Host) (e : Event) (c c2 : State × World σ)
    (hinv : formOwnerFree rows c) (hrb : e = Event.submit → readsBackAt B host c)
    (hstep : step B host e c = some c2) : formOwnerFree rows c2 := by
  unfold step at hstep
  cases hv : render c.1 with
  | cargando =>
    rw [hv] at hstep
    cases e <;> simp at hstep
  | completionForm =>
    rw [hv] at hstep
    have hown := ownerInfo_of_completionForm c.1 hv
    cases e with
    | change name value =>
      simp only [Option.some.injEq] at hstep
      subst hstep
      refine ⟨hinv.1, ?_⟩
      intro _ r hr
      have huuid : (handleChange name value c.1).formData.uuid = c.1.formData.uuid := by
        cases name <;> rfl
      show r.uuid ≠ (handleChange name value c.1).formData.uuid
      rw [huuid]
      exact hinv.2 hown r hr
    | submit =>
      simp only [Option.some.injEq] at hstep
      subst hstep
      exact handleSubmit_formOwnerFree B rows hcoll host c hinv hown (hrb rfl)
    | navigate url => simp at hstep
    | toggleDropdown => simp at hstep
    | signOutClick => simp at hstep
  | contenido =>
    rw [hv] at hstep
    cases e with
    | change name value => simp at hstep
    | submit => simp at hstep
    | navigate url =>
      simp only at hstep
      split at hstep
      · cases hstep
        exact hinv
      · exact Option.noConfusion hstep
    | toggleDropdown =>
      simp only at hstep
      split at hstep
      · cases hstep
        exact hinv
      · exact Option.noConfusion hstep
    | signOutClick =>
      simp only at hstep
      split at hstep
      · cases hstep
        have hrows : rows (handleSignOut B c.2).backend = rows c.2.backend := by
          simp only [handleSignOut]
          split <;> simp [World.routerPush, World.signOut, hcoll.signOut]
        refine ⟨?_, ?_⟩
        · show atMostOnePerOwner (rows (handleSignOut B c.2).backend)
          rw [hrows]
          exact hinv.1
        · intro hnone r hr
          have hr2 : r ∈ rows (handleSignOut B c.2).backend := hr
          rw [hrows] at hr2
          exact hinv.2 hnone r hr2
      · exact Option.noConfusion hstep

/-- A sequence of events handled over a plain collection keeps the invariant,
provided every submission of the run reads back what it wrote. -/
theorem run_formOwnerFree {σ : Type} (B : Backend σ) (rows : σ → List OwnerRow)
    (hcoll : PlainCollection B rows) (host : Host) (events : List Event) :
    ∀ c c2 : State × World σ, formOwnerFree rows c → readsBack B host events c = true →
      run B host events c = some c2 → formOwnerFree rows c2 := by
  induction events with
  | nil =>
    intro c c2 hinv _ hrun
    simp only [run, Option.some.injEq] at hrun
    rw [← hrun]
    exact hinv
  | cons e es ih =>
    intro c c2 hinv hrb hrun
    simp only [run] at hrun
    simp only [readsBack, Bool.and_eq_true] at hrb
    have hat : e = Event.submit → readsBackAt B host c := by
      intro he
      subst he
      simpa using hrb.1
    cases hstep : step B host e c with
    | none =>
      rw [hstep] at hrun
      exact Option.noConfusion hrun
    | some c1 =>
      rw [hstep] at hrun
      have hrest : readsBack B host es c1 = true := by
        have h2 := hrb.2
        rw [hstep] at h2
        exact h2
      exact ih c1 c2 (step_formOwnerFree B rows hcoll host e c c1 hinv hat hstep) hrest hrun

/-- The sample backend holds `ownerinfo` as a plain collection. -/
theorem memStore_plainCollection : PlainCollection memStore (fun b => b.ownerinfo) where
  getUser := by
    intro b
    simp only [memStore]
    split <;> rfl
  selectProfile := fun _ _ => rfl
  selectOwnerinfo := fun _ _ => rfl
  signOut := fun _ => rfl
  insertDone := fun f b _ => ⟨rowOfForm f, rfl, rfl⟩
  insertRefused := by
    intro f b err h
    simp [memStore] at h

/-- The lookup of the sample backend does not answer not-found wrongly. -/
theorem memStore_notFoundIsRight : NotFoundIsRight memStore (fun b => b.ownerinfo) := by
  intro id b hnd hdata _ r hr huuid
  have hmem : r ∈ b.ownerinfo.filter (fun q => decide (q.uuid = id)) :=
    List.mem_filter.mpr ⟨hr, by simp [huuid]⟩
  have hsub : ((b.ownerinfo.filter (fun q => decide (q.uuid = id))).map fun q => q.uuid).Nodup :=
    List.Nodup.sublist (List.Sublist.map _ (List.filter_sublist _)) hnd
  have hall : ∀ q ∈ b.ownerinfo.filter (fun q => decide (q.uuid = id)), q.uuid = id := by
    intro q hq
    simpa using (List.mem_filter.mp hq).2
  have hdata2 : (single (b.ownerinfo.filter (fun q => decide (q.uuid = id)))).data = none := hdata
  match hl : b.ownerinfo.filter (fun q => decide (q.uuid = id)) with
  | [] =>
    rw [hl] at hmem
    simp at hmem
  | [x] =>
    rw [hl] at hdata2
    simp [single] at hdata2
  | x :: y :: t =>
    rw [hl] at hsub hall
    have hx := hall x (by simp)
    have hy := hall y (by simp)
    simp [hx, hy] at hsub

/-- C15 as amended: over a backend that holds `ownerinfo` as a plain collection
and whose lookup does not answer not-found for an owner who has a record,
starting from a collection with at most one record per owner identifier and
none with the empty identifier, every sequence of events handled by the
component after mounting, in which each submission whose insert succeeds is
followed by a lookup that returns a record, ends with at most one record per
owner identifier. The answers of the other calls are arbitrary: the lookups
at mount may fail and inserts may be refused. -/
theorem run_readsBack_atMostOnePerOwner {σ : Type} (B : Backend σ)
    (rows : σ → List OwnerRow) (host : Host) (hour : Nat) (events : List Event)
    (w : World σ) (c2 : State × World σ)
    (hcoll : PlainCollection B rows) (hnf : NotFoundIsRight B rows)
    (h0 : atMostOnePerOwner (rows w.backend))
    (hempty : ∀ r ∈ rows w.backend, r.uuid ≠ "")
    (hrb : readsBack B host events (mount B hour w) = true)
    (hrun : run B host events (mount B hour w) = some c2) :
    atMostOnePerOwner (rows c2.2.backend) := by
  have hfetch := fetchUserData_formOwnerFree B rows hcoll hnf initialState w h0 hempty
  have hmount : formOwnerFree rows (mount B hour w) := ⟨hfetch.1, hfetch.2⟩
  exact (run_formOwnerFree B rows hcoll host events (mount B hour w) c2 hmount hrb hrun).1

/-- Witness of C15 as amended, on the sample backend: user `u1`, without a
record, fills the form and submits; the insert succeeds, the lookup returns
the record, and the store ends with the one record of `u1`. -/
theorem run_readsBack_atMostOnePerOwner_witness :
    readsBack memStore utcHost
        [.change .nombresyapellidos "Ana Pérez", .change .fechadenacimiento "2010-05-01",
         .change .nacionalidad "PE", .submit]
        (mount memStore 13 ⟨storeU1, []⟩) = true ∧
    (run memStore utcHost
        [.change .nombresyapellidos "Ana Pérez", .change .fechadenacimiento "2010-05-01",
         .change .nacionalidad "PE", .submit]
        (mount memStore 13 ⟨storeU1, []⟩)).map (fun c => c.2.backend.ownerinfo)
      = some [rowOfForm ⟨"Ana Pérez", "2010-05-01", "PE", "u1"⟩] ∧
    atMostOnePerOwner [rowOfForm ⟨"Ana Pérez", "2010-05-01", "PE", "u1"⟩] :=
  ⟨by decide, by decide,
   run_readsBack_atMostOnePerOwner memStore (fun b => b.ownerinfo) utcHost 13
    [.change .nombresyapellidos "Ana Pérez", .change .fechadenacimiento "2010-05-01",
     .change .nacionalidad "PE", .submit]
    ⟨storeU1, []⟩
    (({ filledForm "Ana Pérez" "2010-05-01" "PE" with
          ownerInfo := some (rowOfForm ⟨"Ana Pérez", "2010-05-01", "PE", "u1"⟩) },
      ⟨{ storeU1 with ownerinfo := [rowOfForm ⟨"Ana Pérez", "2010-05-01", "PE", "u1"⟩] },
       [Call.getUser, Call.selectProfile "u1", Call.selectOwnerinfo "u1",
        Call.insertOwnerinfo ⟨"Ana Pérez", "2010-05-01", "PE", "u1"⟩,
        Call.getUser, Call.selectProfile "u1", Call.selectOwnerinfo "u1"]⟩))
    memStore_plainCollection memStore_notFoundIsRight
    (by simp [atMostOnePerOwner, storeU1]) (by simp [storeU1])
    (by decide) (by decide)⟩

/-- An outage of the lookup does not touch the collection: the backend with
the outage holds the plain collection of the backend it wraps. -/
theorem outageAfter_plainCollection {σ : Type} (B : Backend σ) (rows : σ → List OwnerRow)
    (err : JsError) (h : PlainCollection B rows) :
    PlainCollection (outageAfter B err) (fun b => rows b.1) where
  getUser := fun b => h.getUser b.1
  selectProfile := fun id b => h.selectProfile id b.1
  selectOwnerinfo := by
    intro id b
    rcases b with ⟨b1, n⟩
    cases n with
    | zero => rfl
    | succ n => exact h.selectOwnerinfo id b1
  signOut := fun b => h.signOut b.1
  insertDone := fun f b hdone => h.insertDone f b.1 hdone
  insertRefused := fun f b e hrefused => h.insertRefused f b.1 e hrefused

/-- An outage whose error is not `PGRST116` is a failed lookup, not a wrong
not-found answer. -/
theorem outageAfter_notFoundIsRight {σ : Type} (B : Backend σ) (rows : σ → List OwnerRow)
    (err : JsError) (hcode : err.code ≠ some "PGRST116") (h : NotFoundIsRight B rows) :
    NotFoundIsRight (outageAfter B err) (fun b => rows b.1) := by
  intro id b hnd hdata hfilter
  rcases b with ⟨b1, n⟩
  cases n with
  | zero =>
    have hsome : (some err).filter (fun e => e.code ≠ some "PGRST116") = some err := by
      simp [Option.filter, hcode]
    have hfilter2 : (some err).filter (fun e => e.code ≠ some "PGRST116") = none := hfilter
    rw [hsome] at hfilter2
    exact Option.noConfusion hfilter2
  | succ n => exact h id b1 hnd hdata hfilter

/-- An outage of the lookup that ends does not touch the collection either. -/
theorem outageUntil_plainCollection {σ : Type} (B : Backend σ) (rows : σ → List OwnerRow)
    (err : JsError) (h : PlainCollection B rows) :
    PlainCollection (outageUntil B err) (fun b => rows b.1) where
  getUser := fun b => h.getUser b.1
  selectProfile := fun id b => h.selectProfile id b.1
  selectOwnerinfo := by
    intro id b
    rcases b with ⟨b1, n⟩
    cases n with
    | zero => exact h.selectOwnerinfo id b1
    | succ n => rfl
  signOut := fun b => h.signOut b.1
  insertDone := fun f b hdone => h.insertDone f b.1 hdone
  insertRefused := fun f b e hrefused => h.insertRefused f b.1 e hrefused

/-- An outage that ends, with an error other than `PGRST116`, gives no wrong
not-found answer. -/
theorem outageUntil_notFoundIsRight {σ : Type} (B : Backend σ) (rows : σ → List OwnerRow)
    (err : JsError) (hcode : err.code ≠ some "PGRST116") (h : NotFoundIsRight B rows) :
    NotFoundIsRight (outageUntil B err) (fun b => rows b.1) := by
  intro id b hnd hdata hfilter
  rcases b with ⟨b1, n⟩
  cases n with
  | zero => exact h id b1 hnd hdata hfilter
  | succ n =>
    have hsome : (some err).filter (fun e => e.code ≠ some "PGRST116") = some err := by
      simp [Option.filter, hcode]
    have hfilter2 : (some err).filter (fun e => e.code ≠ some "PGRST116") = none := hfilter
    rw [hsome] at hfilter2
    exact Option.noConfusion hfilter2

/-- The replica store holds `ownerinfo` as a plain collection. -/
theorem replicaStore_plainCollection :
    PlainCollection replicaStore (fun b => b.1.ownerinfo) where
  getUser := fun _ => rfl
  selectProfile := fun _ _ => rfl
  selectOwnerinfo := fun _ _ => rfl
  signOut := fun _ => rfl
  insertDone := fun f _ _ => ⟨rowOfForm f, rfl, rfl⟩
  insertRefused := by
    intro f b err h
    simp [replicaStore] at h

/-- The run with the outage meets every condition of the amended statement but
one: its backend holds a plain collection, its lookup gives no wrong not-found
answer, the collection starts empty, and the first submission does not read
back what it wrote. -/
theorem outage_run_conditions :
    PlainCollection (outageAfter memStore ⟨"Failed to fetch", none⟩) (fun b => b.1.ownerinfo) ∧
    NotFoundIsRight (outageAfter memStore ⟨"Failed to fetch", none⟩) (fun b => b.1.ownerinfo) ∧
    storeU1.ownerinfo = [] ∧
    readsBack (outageAfter memStore ⟨"Failed to fetch", none⟩) utcHost
        [.change .nombresyapellidos "Ana Pérez", .change .fechadenacimiento "2010-05-01",
         .change .nacionalidad "PE", .submit, .submit]
        (mount (outageAfter memStore ⟨"Failed to fetch", none⟩) 13 ⟨(storeU1, 1), []⟩) = false :=
  ⟨outageAfter_plainCollection memStore (fun b => b.ownerinfo) _ memStore_plainCollection,
   outageAfter_notFoundIsRight memStore (fun b => b.ownerinfo) _ (by decide)
     memStore_notFoundIsRight,
   rfl, by decide⟩

/-- The condition on the empty owner identifier cannot be dropped. The store
holds one record for `u1` and one with the empty owner identifier; the lookup
at mount fails, so the form is rendered with the empty identifier; the
submission inserts a second record with the empty identifier and the lookup
that follows returns the record of `u1`. Every other condition of the amended
statement is met. -/
theorem run_duplicate_empty_owner :
    PlainCollection (outageUntil memStore ⟨"Failed to fetch", none⟩) (fun b => b.1.ownerinfo) ∧
    NotFoundIsRight (outageUntil memStore ⟨"Failed to fetch", none⟩) (fun b => b.1.ownerinfo) ∧
    atMostOnePerOwner storeEmptyOwner.ownerinfo ∧
    readsBack (outageUntil memStore ⟨"Failed to fetch", none⟩) utcHost
        [.change .nombresyapellidos "Ana Pérez", .change .fechadenacimiento "2010-05-01",
         .change .nacionalidad "PE", .submit]
        (mount (outageUntil memStore ⟨"Failed to fetch", none⟩) 13
          ⟨(storeEmptyOwner, 1), []⟩) = true ∧
    (run (outageUntil memStore ⟨"Failed to fetch", none⟩) utcHost
        [.change .nombresyapellidos "Ana Pérez", .change .fechadenacimiento "2010-05-01",
         .change .nacionalidad "PE", .submit]
        (mount (outageUntil memStore ⟨"Failed to fetch", none⟩) 13
          ⟨(storeEmptyOwner, 1), []⟩)).map
      (fun c => c.2.backend.1.ownerinfo.map fun r => r.uuid)
    = some ["", "u1", ""] ∧
    ¬ (["", "u1", ""] : List String).Nodup :=
  ⟨outageUntil_plainCollection memStore (fun b => b.ownerinfo) _ memStore_plainCollection,
   outageUntil_notFoundIsRight memStore (fun b => b.ownerinfo) _ (by decide)
     memStore_notFoundIsRight,
   by simp [atMostOnePerOwner, storeEmptyOwner, rowOfForm], by decide, by decide, by decide⟩

/-- The condition on not-found answers cannot be dropped. User `u1` has a
record that the replica serving the lookups does not hold yet: the lookup at
mount answers not-found, the form is rendered with the identifier of `u1`, the
submission inserts a second record for `u1`, and the lookup that follows
returns the first one. Every other condition of the amended statement is
met. -/
theorem run_duplicate_stale_lookup :
    PlainCollection replicaStore (fun b => b.1.ownerinfo) ∧
    atMostOnePerOwner storeU1Complete.ownerinfo ∧
    (∀ r ∈ storeU1Complete.ownerinfo, r.uuid ≠ "") ∧
    readsBack replicaStore utcHost
        [.change .nombresyapellidos "Ana Pérez", .change .fechadenacimiento "2010-05-01",
         .change .nacionalidad "PE", .submit]
        (mount replicaStore 13 ⟨(storeU1Complete, []), []⟩) = true ∧
    (run replicaStore utcHost
        [.change .nombresyapellidos "Ana Pérez", .change .fechadenacimiento "2010-05-01",
         .change .nacionalidad "PE", .submit]
        (mount replicaStore 13 ⟨(storeU1Complete, []), []⟩)).map
      (fun c => c.2.backend.1.ownerinfo.map fun r => r.uuid)
    = some ["u1", "u1"] :=
  ⟨replicaStore_plainCollection,
   by simp [atMostOnePerOwner, storeU1Complete, storeU1, rowOfForm],
   by simp [storeU1Complete, storeU1, rowOfForm], by decide, by decide⟩

/-! # Statements about `formatDate` -/

/-- The Spanish date format never gives the string `"-"`: it contains `/`. -/
theorem toLocaleDateStringEs_ne_dash (d : JsDate) : toLocaleDateStringEs d ≠ "-" := by
  intro h
  have hdata := congrArg String.data h
  have hmem : '/' ∈ (toLocaleDateStringEs d).data := by
    simp [toLocaleDateStringEs, String.data_append]
  rw [hdata] at hmem
  revert hmem
  decide

/-- C16: `formatDate` returns `"-"` exactly when the input is absent (`null`,
`undefined`, the empty string) or is a string that does not parse to a date; so
it never returns `"-"` for a parseable date. -/
theorem formatDate_dash_iff (host : Host) (v : JsValue) :
    formatDate host v = "-" ↔
      (v = .null ∨ v = .undefined ∨ v = .str "" ∨
        ∃ s, v = .str s ∧ host.parseDate s = none) := by
  cases v with
  | null => simp [formatDate]
  | undefined => simp [formatDate]
  | str s =>
    by_cases hs : s = ""
    · simp [formatDate, hs]
    · cases hp : host.parseDate s with
      | none => simp [formatDate, hs, hp]
      | some d =>
        simp only [formatDate, hs, if_false, hp]
        have hne := toLocaleDateStringEs_ne_dash d
        simp [hs, hp, hne]

/-- Evaluation for C17: on the sample host, `"2010-05-01"` is displayed as
`"1/5/2010"`, without leading zeros, not as `"01/05/2010"`. -/
theorem formatDate_no_padding :
    formatDate utcHost (.str "2010-05-01") = "1/5/2010" ∧
    formatDate utcHost (.str "2010-05-01") ≠ "01/05/2010" := by
  decide

/-! # Statements about `validateForm` -/

/-- The matcher of `cls+` succeeds exactly when the input starts with one or
more characters of the class after which the continuation succeeds. -/
theorem plusK_iff (cls : Char → Bool) (k : List Char → Bool) (cs : List Char) :
    plusK cls k cs = true ↔
      ∃ a rest, cs = a ++ rest ∧ a ≠ [] ∧ (∀ x ∈ a, cls x = true) ∧ k rest = true := by
  induction cs with
  | nil =>
    simp only [plusK]
    constructor
    · intro h
      exact Bool.noConfusion h
    · rintro ⟨a, rest, h, hne, _, _⟩
      have : a = [] := (List.append_eq_nil.mp h.symm).1
      exact absurd this hne
  | cons c cs ih =>
    simp only [plusK, Bool.and_eq_true, Bool.or_eq_true]
    constructor
    · rintro ⟨hc, hk | hp⟩
      · exact ⟨[c], cs, rfl, by simp, by simpa using hc, hk⟩
      · obtain ⟨a, rest, h, _, hall, hk⟩ := ih.mp hp
        refine ⟨c :: a, rest, by rw [h]; rfl, by simp, ?_, hk⟩
        intro x hx
        rcases List.mem_cons.mp hx with h1 | h1
        · rw [h1]; exact hc
        · exact hall x h1
    · rintro ⟨a, rest, h, hne, hall, hk⟩
      cases a with
      | nil => exact absurd rfl hne
      | cons x a2 =>
        simp only [List.cons_append, List.cons.injEq] at h
        obtain ⟨hx, hcs⟩ := h
        subst hx
        refine ⟨hall c (List.mem_cons_self _ _), ?_⟩
        cases a2 with
        | nil =>
          left
          rw [hcs]
          exact hk
        | cons y a3 =>
          right
          exact ih.mpr ⟨y :: a3, rest, hcs, by simp, fun z hz => hall z (List.mem_cons_of_mem _ hz),
            hk⟩

/-- The search succeeds exactly when `f` succeeds on some suffix of the input. -/
theorem searchK_iff (f : List Char → Bool) (cs : List Char) :
    searchK f cs = true ↔ ∃ pre rest, cs = pre ++ rest ∧ f rest = true := by
  induction cs with
  | nil =>
    simp only [searchK]
    constructor
    · intro h
      exact ⟨[], [], rfl, h⟩
    · rintro ⟨pre, rest, h, hf⟩
      have : rest = [] := (List.append_eq_nil.mp h.symm).2
      rw [this] at hf
      exact hf
  | cons c cs ih =>
    simp only [searchK, Bool.or_eq_true]
    constructor
    · rintro (h | h)
      · exact ⟨[], c :: cs, rfl, h⟩
      · obtain ⟨pre, rest, h1, h2⟩ := ih.mp h
        exact ⟨c :: pre, rest, by rw [h1]; rfl, h2⟩
    · rintro ⟨pre, rest, h, hf⟩
      cases pre with
      | nil =>
        left
        simp only [List.nil_append] at h
        rw [h]
        exact hf
      | cons x pre2 =>
        right
        simp only [List.cons_append, List.cons.injEq] at h
        exact ih.mpr ⟨pre2, rest, h.2, hf⟩

/-- The matcher of `cls{lo,hi}` followed by the end of the input succeeds
exactly on the inputs of length between `lo` and `hi` made of characters of
the class. -/
theorem repK_isEmpty_iff (cls : Char → Bool) (hi : Nat) :
    ∀ (lo : Nat) (cs : List Char),
      repK cls List.isEmpty lo hi cs = true ↔
        lo ≤ cs.length ∧ cs.length ≤ hi ∧ ∀ x ∈ cs, cls x = true := by
  induction hi with
  | zero =>
    intro lo cs
    simp only [repK, Bool.and_eq_true, decide_eq_true_eq, List.isEmpty_iff]
    constructor
    · rintro ⟨h1, h2⟩
      subst h1 h2
      simp
    · rintro ⟨h1, h2, _⟩
      have hlen : cs.length = 0 := by omega
      have hcs : cs = [] := List.eq_nil_of_length_eq_zero hlen
      subst hcs
      simp at h1
      exact ⟨h1, rfl⟩
  | succ hi ih =>
    intro lo cs
    cases cs with
    | nil =>
      simp [repK]
    | cons c t =>
      simp only [repK, Bool.and_eq_true, Bool.or_eq_true, decide_eq_true_eq, List.isEmpty_cons,
        List.length_cons, List.mem_cons, ih]
      constructor
      · rintro (⟨_, h⟩ | ⟨hc, h1, h2, h3⟩)
        · exact Bool.noConfusion h
        · refine ⟨by omega, by omega, ?_⟩
          rintro x (hx | hx)
          · rw [hx]; exact hc
          · exact h3 x hx
      · rintro ⟨h1, h2, h3⟩
        right
        exact ⟨h3 c (Or.inl rfl), by omega, by omega, fun x hx => h3 x (Or.inr hx)⟩

/-- The pin expression accepts exactly the strings of four to six ASCII
digits. -/
theorem pinRegExp_test_iff (s : String) :
    pinRegExp.test s = true ↔
      4 ≤ s.data.length ∧ s.data.length ≤ 6 ∧ ∀ c ∈ s.data, c.isDigit = true := by
  simp only [RegExp.test, pinRegExp, if_true, matchK]
  exact repK_isEmpty_iff Char.isDigit 6 4 s.data

/-- The email expression accepts exactly the strings that contain one or more
non-white-space characters, `@`, one or more non-white-space characters, `.`,
and one or more non-white-space characters, in a row. -/
theorem emailRegExp_test_iff (s : String) :
    emailRegExp.test s = true ↔
      ∃ pre a b c post, s.data = pre ++ (a ++ '@' :: (b ++ '.' :: (c ++ post))) ∧
        a ≠ [] ∧ b ≠ [] ∧ c ≠ [] ∧
        (∀ x ∈ a, isJsWhitespace x = false) ∧ (∀ x ∈ b, isJsWhitespace x = false) ∧
        (∀ x ∈ c, isJsWhitespace x = false) := by
  have hcls : ∀ l : List Char, (∀ x ∈ l, nonWhitespace x = true) ↔
      (∀ x ∈ l, isJsWhitespace x = false) := by
    intro l
    simp [nonWhitespace]
  have hlit : ∀ (ch : Char) (k : List Char → Bool) (cs : List Char),
      (match cs with
        | [] => false
        | x :: t => decide (x = ch) && k t) = true ↔ ∃ t, cs = ch :: t ∧ k t = true := by
    intro ch k cs
    cases cs with
    | nil => simp
    | cons x t =>
      simp only [Bool.and_eq_true, decide_eq_true_eq, List.cons.injEq]
      constructor
      · rintro ⟨h1, h2⟩
        exact ⟨t, ⟨h1, rfl⟩, h2⟩
      · rintro ⟨t2, ⟨h1, h2⟩, h3⟩
        subst h2
        exact ⟨h1, h3⟩
  simp only [RegExp.test, emailRegExp, Bool.false_eq_true, if_false, matchK, searchK_iff,
    plusK_iff, hlit, hcls]
  constructor
  · rintro ⟨pre, rest, h0, a, r1, h1, ha, hal, r2, h2, b, r3, h3, hb, hbl, r4, h4, c, post, h5,
      hc, hcl, _⟩
    refine ⟨pre, a, b, c, post, ?_, ha, hb, hc, hal, hbl, hcl⟩
    rw [h0, h1, h2, h3, h4, h5]
  · rintro ⟨pre, a, b, c, post, h, ha, hb, hc, hal, hbl, hcl⟩
    exact ⟨pre, _, h, a, _, rfl, ha, hal, _, rfl, b, _, rfl, hb, hbl, _, rfl, c, post, rfl, hc,
      hcl, trivial⟩

/-- The first test of `validateForm` fails the names that are absent or blank. -/
theorem nameTest_iff (v : JsValue) :
    (!v.truthy || jsTrim v.text == "") = true ↔ ¬ nameOk v := by
  cases v with
  | null => simp [JsValue.truthy, nameOk]
  | undefined => simp [JsValue.truthy, nameOk]
  | str n =>
    simp only [JsValue.truthy, JsValue.text, nameOk, Bool.or_eq_true, Bool.not_eq_true',
      decide_eq_false_iff_not, beq_iff_eq, JsValue.str.injEq, exists_eq_left', not_not,
      jsTrim_eq_empty_iff]
    constructor
    · rintro (h | h)
      · subst h
        simp [isBlank]
      · simp [h]
    · intro h
      right
      simpa using h

/-- The second test of `validateForm` fails the emails that are absent or do
not contain the pattern. -/
theorem emailTest_iff (v : JsValue) :
    (!v.truthy || !emailRegExp.test v.text) = true ↔ ¬ emailOk v := by
  have hempty : emailRegExp.test "" = false := by decide
  cases v with
  | null => simp [JsValue.truthy, emailOk]
  | undefined => simp [JsValue.truthy, emailOk]
  | str e =>
    have hok : emailOk (.str e) ↔ emailRegExp.test e = true := by
      rw [emailRegExp_test_iff]
      simp [emailOk]
    rw [hok]
    simp only [JsValue.truthy, JsValue.text, Bool.or_eq_true, Bool.not_eq_true',
      decide_eq_false_iff_not, not_not, Bool.not_eq_true]
    constructor
    · rintro (h | h)
      · subst h
        exact hempty
      · exact h
    · intro h
      exact Or.inr h

/-- The third test of `validateForm` fails the pins that are present and are
not four to six digits. -/
theorem pinTest_iff (v : JsValue) :
    (v.truthy && !pinRegExp.test v.text) = true ↔ ¬ pinOk v := by
  cases v with
  | null => simp [JsValue.truthy, pinOk]
  | undefined => simp [JsValue.truthy, pinOk]
  | str p =>
    have hok : pinOk (.str p) ↔ (p = "" ∨ pinRegExp.test p = true) := by
      rw [pinRegExp_test_iff]
      simp [pinOk]
    rw [hok]
    simp only [JsValue.truthy, JsValue.text, Bool.and_eq_true, decide_eq_true_eq,
      Bool.not_eq_true', not_or, Bool.not_eq_true]

/-- C18: `validateForm` returns true exactly when the name is non-empty after
trimming, the email contains the pattern non-white-space, `@`,
non-white-space, `.`, non-white-space, and the pin is absent, empty or made of
four to six decimal digits; otherwise it returns false and sets the error of
the first failing check, in the order name, email, pin; when it returns true
the state is unchanged. -/
theorem validateForm_spec (s : AdminState) :
    ((validateForm s).1 = true ↔
      (nameOk s.formData.name ∧ emailOk s.formData.email ∧ pinOk s.formData.pin)) ∧
    (¬ nameOk s.formData.name →
      validateForm s = (false, { s with error := some "El nombre es obligatorio." })) ∧
    (nameOk s.formData.name → ¬ emailOk s.formData.email →
      validateForm s = (false, { s with error := some "Email inválido." })) ∧
    (nameOk s.formData.name → emailOk s.formData.email → ¬ pinOk s.formData.pin →
      validateForm s =
        (false, { s with error := some "El pin debe tener entre 4 y 6 dígitos numéricos." })) ∧
    (nameOk s.formData.name → emailOk s.formData.email → pinOk s.formData.pin →
      validateForm s = (true, s)) := by
  have h1 := nameTest_iff s.formData.name
  have h2 := emailTest_iff s.formData.email
  have h3 := pinTest_iff s.formData.pin
  have hname : ¬ nameOk s.formData.name →
      validateForm s = (false, { s with error := some "El nombre es obligatorio." }) := by
    intro hn
    simp only [validateForm]
    rw [if_pos (h1.mpr hn)]
  have hemail : nameOk s.formData.name → ¬ emailOk s.formData.email →
      validateForm s = (false, { s with error := some "Email inválido." }) := by
    intro hn he
    simp only [validateForm]
    rw [if_neg (fun h => (h1.mp h) hn), if_pos (h2.mpr he)]
  have hpin : nameOk s.formData.name → emailOk s.formData.email → ¬ pinOk s.formData.pin →
      validateForm s =
        (false, { s with error := some "El pin debe tener entre 4 y 6 dígitos numéricos." }) := by
    intro hn he hp
    simp only [validateForm]
    rw [if_neg (fun h => (h1.mp h) hn), if_neg (fun h => (h2.mp h) he), if_pos (h3.mpr hp)]
  have hok : nameOk s.formData.name → emailOk s.formData.email → pinOk s.formData.pin →
      validateForm s = (true, s) := by
    intro hn he hp
    simp only [validateForm]
    rw [if_neg (fun h => (h1.mp h) hn), if_neg (fun h => (h2.mp h) he),
      if_neg (fun h => (h3.mp h) hp)]
  refine ⟨?_, hname, hemail, hpin, hok⟩
  constructor
  · intro h
    by_cases hn : nameOk s.formData.name
    · by_cases he : emailOk s.formData.email
      · by_cases hp : pinOk s.formData.pin
        · exact ⟨hn, he, hp⟩
        · rw [hpin hn he hp] at h
          exact Bool.noConfusion h
      · rw [hemail hn he] at h
        exact Bool.noConfusion h
    · rw [hname hn] at h
      exact Bool.noConfusion h
  · rintro ⟨hn, he, hp⟩
    rw [hok hn he hp]

/-- Witness of C18: name `Ana`, email `ana@x.org`, pin `12345` pass the three
checks. -/
theorem validateForm_spec_witness :
    validateForm (adminForm (.str "Ana") (.str "ana@x.org") (.str "12345")) =
      (true, adminForm (.str "Ana") (.str "ana@x.org") (.str "12345")) :=
  (validateForm_spec (adminForm (.str "Ana") (.str "ana@x.org") (.str "12345"))).2.2.2.2
    ⟨"Ana", rfl, by decide⟩
    ⟨"ana@x.org", rfl, [], ['a', 'n', 'a'], ['x'], ['o', 'r', 'g'], [], by decide, by decide,
      by decide, by decide, by decide, by decide, by decide⟩
    (Or.inr (Or.inr (Or.inr ⟨"12345", rfl, by decide, by decide, by decide⟩)))

/-! # Statements about the manager pages -/

/-- A run of `fetchBooks` appends no insert and no update to the log. -/
theorem fetchBooks_calls {σ : Type} (B : TableBackend σ Libros.Form Libros.Book)
    (s : Libros.State) (w : TableWorld σ Libros.Form) :
    ∃ rest, (Libros.fetchBooks B s w).2.calls = w.calls ++ rest ∧
      ∀ c ∈ rest, c.isWrite = false := by
  simp only [Libros.fetchBooks]
  split
  · exact ⟨[], by simp, by simp⟩
  · split
    · rename_i error _
      refine ⟨[TableCall.select, TableCall.alert "Error cargando libros",
        TableCall.consoleError error], ?_, ?_⟩
      · simp [TableWorld.select, TableWorld.alert, TableWorld.consoleError]
      · intro c hc
        simp only [List.mem_cons, List.mem_singleton, List.not_mem_nil, or_false] at hc
        rcases hc with h | h | h <;> subst h <;> rfl
    · refine ⟨[TableCall.select], by simp [TableWorld.select], ?_⟩
      intro c hc
      simp only [List.mem_singleton] at hc
      subst hc
      rfl

/-- A run of `fetchMusics` appends no insert and no update to the log. -/
theorem fetchMusics_calls {σ : Type} (B : TableBackend σ Musicas.Form Musicas.Music)
    (s : Musicas.State) (w : TableWorld σ Musicas.Form) :
    ∃ rest, (Musicas.fetchMusics B s w).2.calls = w.calls ++ rest ∧
      ∀ c ∈ rest, c.isWrite = false := by
  simp only [Musicas.fetchMusics]
  split
  · rename_i error _
    refine ⟨[TableCall.select, TableCall.alert "Error cargando música",
      TableCall.consoleError error], ?_, ?_⟩
    · simp [TableWorld.select, TableWorld.alert, TableWorld.consoleError]
    · intro c hc
      simp only [List.mem_cons, List.mem_singleton, List.not_mem_nil, or_false] at hc
      rcases hc with h | h | h <;> subst h <;> rfl
  · refine ⟨[TableCall.select], by simp [TableWorld.select], ?_⟩
    intro c hc
    simp only [List.mem_singleton] at hc
    subst hc
    rfl

/-- A run of `fetchEvents` appends no insert and no update to the log. -/
theorem fetchEvents_calls {σ : Type} (B : TableBackend σ Eventos.Form Eventos.EventRow)
    (s : Eventos.State) (w : TableWorld σ Eventos.Form) :
    ∃ rest, (Eventos.fetchEvents B s w).2.calls = w.calls ++ rest ∧
      ∀ c ∈ rest, c.isWrite = false := by
  simp only [Eventos.fetchEvents]
  split
  · rename_i error _
    refine ⟨[TableCall.select, TableCall.consoleError error], ?_, ?_⟩
    · simp [TableWorld.select, TableWorld.consoleError]
    · intro c hc
      simp only [List.mem_cons, List.mem_singleton, List.not_mem_nil, or_false] at hc
      rcases hc with h | h <;> subst h <;> rfl
  · refine ⟨[TableCall.select], by simp [TableWorld.select], ?_⟩
    intro c hc
    simp only [List.mem_singleton] at hc
    subst hc
    rfl

/-- The two effects logged after a failed write are not writes. -/
theorem alert_consoleError_not_write {F : Type} (message : String) (error : JsError) :
    ∀ c ∈ [TableCall.alert message, (TableCall.consoleError error : TableCall F)],
      c.isWrite = false := by
  intro c hc
  simp only [List.mem_cons, List.mem_singleton, List.not_mem_nil, or_false] at hc
  rcases hc with h | h <;> subst h <;> rfl

/-- C19: in the books manager and in the music manager, with a title that is
empty or white space only `handleCreate` and `handleSaveEdit` leave the whole
state unchanged (form, editing id and loaded list included) and only raise the
alert: no insert, no update; with a title that is not blank, `handleCreate`
makes the insert of the current form and `handleSaveEdit` the update of the row
with the given id with the current form, in both cases as first effect and as
only write. -/
theorem managers_title_required {σ : Type} :
    (∀ (B : TableBackend σ Libros.Form Libros.Book) (s : Libros.State)
        (w : TableWorld σ Libros.Form),
      (isBlank s.form.title = true →
        Libros.handleCreate B s w = (s, w.alert "El título es obligatorio")) ∧
      (isBlank s.form.title = false →
        ∃ rest, (Libros.handleCreate B s w).2.calls =
          w.calls ++ TableCall.insert s.form :: rest ∧ ∀ c ∈ rest, c.isWrite = false) ∧
      (∀ id : RowId, isBlank s.form.title = true →
        Libros.handleSaveEdit B id s w = (s, w.alert "El título es obligatorio")) ∧
      (∀ id : RowId, isBlank s.form.title = false →
        ∃ rest, (Libros.handleSaveEdit B id s w).2.calls =
          w.calls ++ TableCall.update s.form id :: rest ∧ ∀ c ∈ rest, c.isWrite = false)) ∧
    (∀ (B : TableBackend σ Musicas.Form Musicas.Music) (s : Musicas.State)
        (w : TableWorld σ Musicas.Form),
      (isBlank s.form.titulo = true →
        Musicas.handleCreate B s w = (s, w.alert "El título es obligatorio")) ∧
      (isBlank s.form.titulo = false →
        ∃ rest, (Musicas.handleCreate B s w).2.calls =
          w.calls ++ TableCall.insert s.form :: rest ∧ ∀ c ∈ rest, c.isWrite = false) ∧
      (∀ id : RowId, isBlank s.form.titulo = true →
        Musicas.handleSaveEdit B id s w = (s, w.alert "El título es obligatorio")) ∧
      (∀ id : RowId, isBlank s.form.titulo = false →
        ∃ rest, (Musicas.handleSaveEdit B id s w).2.calls =
          w.calls ++ TableCall.update s.form id :: rest ∧ ∀ c ∈ rest, c.isWrite = false)) := by
  constructor
  · intro B s w
    have hblank : isBlank s.form.title = true → jsTrim s.form.title = "" :=
      (jsTrim_eq_empty_iff _).mpr
    have hfilled : isBlank s.form.title = false → ¬ jsTrim s.form.title = "" := by
      intro h ht
      rw [jsTrim_eq_empty_iff, h] at ht
      exact Bool.noConfusion ht
    refine ⟨?_, ?_, ?_, ?_⟩
    · intro h
      simp only [Libros.handleCreate]
      rw [if_pos (hblank h)]
    · intro h
      simp only [Libros.handleCreate]
      rw [if_neg (hfilled h)]
      split
      · rename_i error _
        exact ⟨[TableCall.alert "Error creando libro", TableCall.consoleError error],
          by simp [TableWorld.insert, TableWorld.alert, TableWorld.consoleError],
          alert_consoleError_not_write _ _⟩
      · obtain ⟨rest, h1, h2⟩ := fetchBooks_calls B { s with form := Libros.emptyForm }
          (w.insert B s.form).2
        exact ⟨rest, by rw [h1]; simp [TableWorld.insert], h2⟩
    · intro id h
      simp only [Libros.handleSaveEdit]
      rw [if_pos (hblank h)]
    · intro id h
      simp only [Libros.handleSaveEdit]
      rw [if_neg (hfilled h)]
      split
      · rename_i error _
        exact ⟨[TableCall.alert "Error guardando libro", TableCall.consoleError error],
          by simp [TableWorld.update, TableWorld.alert, TableWorld.consoleError],
          alert_consoleError_not_write _ _⟩
      · obtain ⟨rest, h1, h2⟩ := fetchBooks_calls B
          { s with editingId := none, form := Libros.emptyForm } (w.update B s.form id).2
        exact ⟨rest, by rw [h1]; simp [TableWorld.update], h2⟩
  · intro B s w
    have hblank : isBlank s.form.titulo = true → jsTrim s.form.titulo = "" :=
      (jsTrim_eq_empty_iff _).mpr
    have hfilled : isBlank s.form.titulo = false → ¬ jsTrim s.form.titulo = "" := by
      intro h ht
      rw [jsTrim_eq_empty_iff, h] at ht
      exact Bool.noConfusion ht
    refine ⟨?_, ?_, ?_, ?_⟩
    · intro h
      simp only [Musicas.handleCreate]
      rw [if_pos (hblank h)]
    · intro h
      simp only [Musicas.handleCreate]
      rw [if_neg (hfilled h)]
      split
      · rename_i error _
        exact ⟨[TableCall.alert "Error creando música", TableCall.consoleError error],
          by simp [TableWorld.insert, TableWorld.alert, TableWorld.consoleError],
          alert_consoleError_not_write _ _⟩
      · obtain ⟨rest, h1, h2⟩ := fetchMusics_calls B { s with form := Musicas.emptyForm }
          (w.insert B s.form).2
        exact ⟨rest, by rw [h1]; simp [TableWorld.insert], h2⟩
    · intro id h
      simp only [Musicas.handleSaveEdit]
      rw [if_pos (hblank h)]
    · intro id h
      simp only [Musicas.handleSaveEdit]
      rw [if_neg (hfilled h)]
      split
      · rename_i error _
        exact ⟨[TableCall.alert "Error guardando música", TableCall.consoleError error],
          by simp [TableWorld.update, TableWorld.alert, TableWorld.consoleError],
          alert_consoleError_not_write _ _⟩
      · obtain ⟨rest, h1, h2⟩ := fetchMusics_calls B
          { s with editingId := none, form := Musicas.emptyForm } (w.update B s.form id).2
        exact ⟨rest, by rw [h1]; simp [TableWorld.update], h2⟩

/-- Witness of C19: a book whose title is two spaces is not inserted, and a
music with an empty title is not updated. -/
theorem managers_title_required_witness :
    Libros.handleCreate (constTable none []) (Libros.sample ⟨"  ", "d", "", ""⟩) ⟨(), []⟩ =
      (Libros.sample ⟨"  ", "d", "", ""⟩, ⟨(), [TableCall.alert "El título es obligatorio"]⟩) ∧
    Musicas.handleSaveEdit (constTable none []) (.num 7) (Musicas.sample ⟨"pop", "", "", "", "x"⟩)
        ⟨(), []⟩ =
      (Musicas.sample ⟨"pop", "", "", "", "x"⟩,
        ⟨(), [TableCall.alert "El título es obligatorio"]⟩) :=
  ⟨(managers_title_required.1 (constTable none []) (Libros.sample ⟨"  ", "d", "", ""⟩)
      ⟨(), []⟩).1 (by decide),
   (managers_title_required.2 (constTable none []) (Musicas.sample ⟨"pop", "", "", "", "x"⟩)
      ⟨(), []⟩).2.2.1 (.num 7) (by decide)⟩

/-- C20: `handleCreateEvent` leaves the state unchanged and only raises the
alert when the name or the date is empty; otherwise its first effect is the
insert of the current form, which is its only write; so it makes an insert if
and only if the name and the date are both non-empty; and when that insert
succeeds the form ends with every field empty. -/
theorem handleCreateEvent_spec {σ : Type} (B : TableBackend σ Eventos.Form Eventos.EventRow)
    (s : Eventos.State) (w : TableWorld σ Eventos.Form) :
    ((s.form.name = "" ∨ s.form.date = "") →
      Eventos.handleCreateEvent B s w = (s, w.alert "Nombre y fecha son obligatorios")) ∧
    ((s.form.name ≠ "" ∧ s.form.date ≠ "") →
      ∃ rest, (Eventos.handleCreateEvent B s w).2.calls =
        w.calls ++ TableCall.insert s.form :: rest ∧ ∀ c ∈ rest, c.isWrite = false) ∧
    ((∃ row, TableCall.insert row ∈
        (Eventos.handleCreateEvent B s w).2.calls.drop w.calls.length) ↔
      (s.form.name ≠ "" ∧ s.form.date ≠ "")) ∧
    ((s.form.name ≠ "" ∧ s.form.date ≠ "") → (B.insert s.form w.backend).1 = none →
      (Eventos.handleCreateEvent B s w).1.form = Eventos.emptyForm) := by
  have hempty : (s.form.name = "" ∨ s.form.date = "") →
      Eventos.handleCreateEvent B s w = (s, w.alert "Nombre y fecha son obligatorios") := by
    intro h
    simp only [Eventos.handleCreateEvent]
    rw [if_pos h]
  have hfilled : (s.form.name ≠ "" ∧ s.form.date ≠ "") →
      ∃ rest, (Eventos.handleCreateEvent B s w).2.calls =
        w.calls ++ TableCall.insert s.form :: rest ∧ ∀ c ∈ rest, c.isWrite = false := by
    rintro ⟨h1, h2⟩
    have hcond : ¬ (s.form.name = "" ∨ s.form.date = "") := by
      rintro (h | h)
      · exact h1 h
      · exact h2 h
    simp only [Eventos.handleCreateEvent]
    rw [if_neg hcond]
    split
    · rename_i error _
      exact ⟨[TableCall.alert "Error al crear evento", TableCall.consoleError error],
        by simp [TableWorld.insert, TableWorld.alert, TableWorld.consoleError],
        alert_consoleError_not_write _ _⟩
    · obtain ⟨rest, h3, h4⟩ := fetchEvents_calls B { s with form := Eventos.emptyForm }
        (w.insert B s.form).2
      exact ⟨rest, by rw [h3]; simp [TableWorld.insert], h4⟩
  refine ⟨hempty, hfilled, ?_, ?_⟩
  · constructor
    · rintro ⟨row, hrow⟩
      by_contra hne
      have hcond : s.form.name = "" ∨ s.form.date = "" := by
        by_cases h1 : s.form.name = ""
        · exact Or.inl h1
        · by_cases h2 : s.form.date = ""
          · exact Or.inr h2
          · exact absurd ⟨h1, h2⟩ hne
      rw [hempty hcond] at hrow
      simp [TableWorld.alert] at hrow
    · intro h
      obtain ⟨rest, h1, _⟩ := hfilled h
      refine ⟨s.form, ?_⟩
      rw [h1]
      simp
  · rintro ⟨h1, h2⟩ hins
    have hcond : ¬ (s.form.name = "" ∨ s.form.date = "") := by
      rintro (h | h)
      · exact h1 h
      · exact h2 h
    simp only [Eventos.handleCreateEvent]
    rw [if_neg hcond]
    simp only [TableWorld.insert, hins, Eventos.fetchEvents]
    split <;> rfl

/-- Witness of C20: an event with a name and no date is not inserted. -/
theorem handleCreateEvent_spec_witness :
    Eventos.handleCreateEvent (constTable none []) (Eventos.sample ⟨"Feria", "", "", "", ""⟩)
        ⟨(), []⟩ =
      (Eventos.sample ⟨"Feria", "", "", "", ""⟩,
        ⟨(), [TableCall.alert "Nombre y fecha son obligatorios"]⟩) :=
  (handleCreateEvent_spec (constTable none []) (Eventos.sample ⟨"Feria", "", "", "", ""⟩)
    ⟨(), []⟩).1 (Or.inr rfl)

/-! # Statements about the end of a lookup, the greeting and the age -/

/-- C21: every run of `fetchUserData` ends with loading false; when an error is
thrown in the run, the state is the `catch` state for that error (form error
set to its message, owner record and profile null); when none is thrown the
form error is empty; and a run started from the `catch` state gives the same
result as a run started from the state before the failure, so the lookup can
be run again. -/
theorem fetchUserData_finally {σ : Type} (B : Backend σ) (s : State) (w : World σ) :
    (fetchUserData B s w).1.loading = false ∧
    (∀ err, thrownByFetch B w.backend = some err →
      (fetchUserData B s w).1 = fetchFailed s err ∧
      (fetchUserData B s w).1.formError = err.message ∧
      (fetchUserData B s w).1.ownerInfo = none ∧
      (fetchUserData B s w).1.userProfile = none) ∧
    (thrownByFetch B w.backend = none → (fetchUserData B s w).1.formError = "") ∧
    (∀ (err : JsError) (w2 : World σ),
      fetchUserData B (fetchFailed s err) w2 = fetchUserData B s w2) := by
  refine ⟨?_, ?_, ?_, ?_⟩
  · simp only [fetchUserData]
    split
    · split
      · rfl
      · split
        · rfl
        · split <;> rfl
    · rfl
  · intro err herr
    have h : (fetchUserData B s w).1 = fetchFailed s err := by
      rcases hg : B.getUser w.backend with ⟨⟨au, ae⟩, b1⟩
      cases ae with
      | some e =>
        simp only [thrownByFetch, hg] at herr
        cases herr
        simp [fetchUserData, World.getUser, hg, fetchFailed]
      | none =>
        cases au with
        | none =>
          simp only [thrownByFetch, hg] at herr
          cases herr
          simp [fetchUserData, World.getUser, hg, fetchFailed]
        | some u =>
          rcases hp : B.selectProfile u.id b1 with ⟨⟨pd, pe⟩, b2⟩
          cases pe with
          | some e =>
            simp only [thrownByFetch, hg, hp] at herr
            cases herr
            simp [fetchUserData, World.getUser, World.selectProfile, hg, hp, fetchFailed]
          | none =>
            rcases ho : B.selectOwnerinfo u.id b2 with ⟨⟨od, oe⟩, b3⟩
            simp only [thrownByFetch, hg, hp, ho] at herr
            simp only [fetchUserData, World.getUser, World.selectProfile,
              World.selectOwnerinfo, hg, hp, ho, herr, fetchFailed]
    rw [h]
    exact ⟨rfl, rfl, rfl, rfl⟩
  · intro hnone
    rcases hg : B.getUser w.backend with ⟨⟨au, ae⟩, b1⟩
    cases ae with
    | some e => simp [thrownByFetch, hg] at hnone
    | none =>
      cases au with
      | none => simp [thrownByFetch, hg] at hnone
      | some u =>
        rcases hp : B.selectProfile u.id b1 with ⟨⟨pd, pe⟩, b2⟩
        cases pe with
        | some e => simp [thrownByFetch, hg, hp] at hnone
        | none =>
          rcases ho : B.selectOwnerinfo u.id b2 with ⟨⟨od, oe⟩, b3⟩
          simp only [thrownByFetch, hg, hp, ho] at hnone
          simp only [fetchUserData, World.getUser, World.selectProfile,
            World.selectOwnerinfo, hg, hp, ho, hnone]
          cases od <;> rfl
  · intro err w2
    simp only [fetchUserData]
    split
    · split
      · rfl
      · split
        · rfl
        · split <;> rfl
    · rfl

/-- Witness of C21: with nobody signed in the run throws, and ends in the
`catch` state with loading false. -/
theorem fetchUserData_finally_witness :
    (fetchUserData memStore initialState ⟨storeNoSession, []⟩).1.formError =
      "No hay usuario logueado" ∧
    (fetchUserData memStore initialState ⟨storeNoSession, []⟩).1.loading = false :=
  have h := fetchUserData_finally memStore initialState ⟨storeNoSession, []⟩
  ⟨(h.2.1 { message := "No hay usuario logueado", code := none } rfl).2.1, h.1⟩

/-- C25: for every hour, the greeting is "Buenos días" exactly from 5 to 11,
"Buenas tardes" exactly from 12 to 19, and "Buenas noches" exactly before 5
and from 20 on; the three conditions exclude one another, so exactly one
greeting is chosen. -/
theorem greetingFor_spec (h : Nat) :
    (greetingFor h = "Buenos días" ↔ (5 ≤ h ∧ h < 12)) ∧
    (greetingFor h = "Buenas tardes" ↔ (12 ≤ h ∧ h < 20)) ∧
    (greetingFor h = "Buenas noches" ↔ (h < 5 ∨ 20 ≤ h)) ∧
    (greetingFor h = "Buenos días" ∨ greetingFor h = "Buenas tardes" ∨
      greetingFor h = "Buenas noches") := by
  have h12 : ("Buenos días" : String) ≠ "Buenas tardes" := by decide
  have h13 : ("Buenos días" : String) ≠ "Buenas noches" := by decide
  have h23 : ("Buenas tardes" : String) ≠ "Buenas noches" := by decide
  unfold greetingFor
  by_cases ha : 5 ≤ h ∧ h < 12
  · rw [if_pos ha]
    refine ⟨⟨fun _ => ha, fun _ => rfl⟩, ⟨fun e => absurd e h12, fun hb => by omega⟩,
      ⟨fun e => absurd e h13, fun hb => by omega⟩, Or.inl rfl⟩
  · rw [if_neg ha]
    by_cases hb : 12 ≤ h ∧ h < 20
    · rw [if_pos hb]
      refine ⟨⟨fun e => absurd e.symm h12, fun hc => absurd hc ha⟩, ⟨fun _ => hb, fun _ => rfl⟩,
        ⟨fun e => absurd e h23, fun hc => by omega⟩, Or.inr (Or.inl rfl)⟩
    · rw [if_neg hb]
      refine ⟨⟨fun e => absurd e.symm h13, fun hc => absurd hc ha⟩,
        ⟨fun e => absurd e.symm h23, fun hc => absurd hc hb⟩,
        ⟨fun _ => by omega, fun _ => rfl⟩, Or.inr (Or.inr rfl)⟩

/-- The value of `calcularEdad` for a birth date that parses to `nac`. -/
theorem calcularEdad_eq (host : Host) (hoy nac : JsDate) (s : String)
    (hparse : host.parseDate s = some nac) :
    calcularEdad host hoy (.str s) =
      some (if hoy.month < nac.month ∨ (hoy.month = nac.month ∧ hoy.date < nac.date)
        then hoy.fullYear - nac.fullYear - 1 else hoy.fullYear - nac.fullYear) := by
  have hne := ne_empty_of_parse host s nac hparse
  have hcond : ((hoy.month : Int) - (nac.month : Int) < 0 ∨
      ((hoy.month : Int) - (nac.month : Int) = 0 ∧ hoy.date < nac.date)) ↔
      (hoy.month < nac.month ∨ (hoy.month = nac.month ∧ hoy.date < nac.date)) := by
    constructor
    · rintro (h | ⟨h1, h2⟩)
      · left; omega
      · right; exact ⟨by omega, h2⟩
    · rintro (h | ⟨h1, h2⟩)
      · left; omega
      · right; exact ⟨by omega, h2⟩
  simp only [calcularEdad, hne, if_false, hparse]
  by_cases h : hoy.month < nac.month ∨ (hoy.month = nac.month ∧ hoy.date < nac.date)
  · rw [if_pos (hcond.mpr h), if_pos h]
  · rw [if_neg (fun hc => h (hcond.mp hc)), if_neg h]

/-- C26: for a birth date that parses to `nac`, when the current date is on or
after `nac` the age is an integer that is not negative, and on the day `nac`
itself the age is 0. -/
theorem calcularEdad_nonneg (host : Host) (hoy nac : JsDate) (s : String)
    (hparse : host.parseDate s = some nac) :
    (isAfter nac hoy = false →
      ∃ a, calcularEdad host hoy (.str s) = some a ∧ 0 ≤ a) ∧
    calcularEdad host nac (.str s) = some 0 := by
  constructor
  · intro h
    rw [calcularEdad_eq host hoy nac s hparse]
    refine ⟨_, rfl, ?_⟩
    simp only [isAfter, decide_eq_false_iff_not] at h
    split
    · rename_i hb
      have : nac.fullYear < hoy.fullYear := by
        by_contra hc
        apply h
        rcases hb with hb | ⟨hb1, hb2⟩
        · rcases Int.lt_or_lt_of_ne (show hoy.fullYear ≠ nac.fullYear from fun he =>
            h (Or.inr ⟨he, Or.inl hb⟩)) with hl | hl
          · exact Or.inl hl
          · exact absurd hl hc
        · rcases Int.lt_or_lt_of_ne (show hoy.fullYear ≠ nac.fullYear from fun he =>
            h (Or.inr ⟨he, Or.inr ⟨hb1, hb2⟩⟩)) with hl | hl
          · exact Or.inl hl
          · exact absurd hl hc
      omega
    · have : nac.fullYear ≤ hoy.fullYear := by
        by_contra hc
        exact h (Or.inl (by omega))
      omega
  · rw [calcularEdad_eq host nac nac s hparse]
    simp

/-- Witness of C26: born 2010-05-01, asked on 2010-05-02 and on the day of
birth. -/
theorem calcularEdad_nonneg_witness :
    (∃ a, calcularEdad utcHost ⟨2010, 4, 2⟩ (.str "2010-05-01") = some a ∧ 0 ≤ a) ∧
    calcularEdad utcHost ⟨2010, 4, 1⟩ (.str "2010-05-01") = some 0 :=
  have h := calcularEdad_nonneg utcHost ⟨2010, 4, 2⟩ ⟨2010, 4, 1⟩ "2010-05-01" (by decide)
  ⟨h.1 (by decide), h.2⟩

/-- C27: for a birth date that parses, when the date `d1` is on or before the
date `d2`, the age as of `d1` is at most the age as of `d2`. -/
theorem calcularEdad_mono (host : Host) (d1 d2 nac : JsDate) (s : String)
    (hparse : host.parseDate s = some nac) (hle : onOrBefore d1 d2 = true) :
    ∃ a1 a2, calcularEdad host d1 (.str s) = some a1 ∧
      calcularEdad host d2 (.str s) = some a2 ∧ a1 ≤ a2 := by
  rw [calcularEdad_eq host d1 nac s hparse, calcularEdad_eq host d2 nac s hparse]
  refine ⟨_, _, rfl, rfl, ?_⟩
  simp only [onOrBefore, isAfter, Bool.not_eq_true', decide_eq_false_iff_not] at hle
  have hy : d1.fullYear ≤ d2.fullYear := by
    by_contra hc
    exact hle (Or.inl (by omega))
  by_cases hyy : d1.fullYear = d2.fullYear
  · have hmd : ¬ (d2.month < d1.month ∨ (d2.month = d1.month ∧ d2.date < d1.date)) :=
      fun hc => hle (Or.inr ⟨hyy.symm, hc⟩)
    by_cases hb2 : d2.month < nac.month ∨ (d2.month = nac.month ∧ d2.date < nac.date)
    · have hb1 : d1.month < nac.month ∨ (d1.month = nac.month ∧ d1.date < nac.date) := by
        by_contra hc
        apply hmd
        rcases hb2 with h | ⟨h1, h2⟩
        · by_cases hm : d2.month < d1.month
          · exact Or.inl hm
          · exfalso
            apply hc
            left
            omega
        · by_cases hm : d2.month < d1.month
          · exact Or.inl hm
          · by_cases hm2 : d2.month = d1.month
            · right
              refine ⟨hm2, ?_⟩
              by_contra hd
              apply hc
              right
              exact ⟨by omega, by omega⟩
            · exfalso
              apply hc
              left
              omega
      rw [if_pos hb1, if_pos hb2]
      omega
    · rw [if_neg hb2]
      split <;> omega
  · have hlt : d1.fullYear < d2.fullYear := by omega
    split <;> split <;> omega

/-- Witness of C27: born 2010-05-01, the ages on 2024-04-30 and 2024-05-01. -/
theorem calcularEdad_mono_witness :
    ∃ a1 a2, calcularEdad utcHost ⟨2024, 3, 30⟩ (.str "2010-05-01") = some a1 ∧
      calcularEdad utcHost ⟨2024, 4, 1⟩ (.str "2010-05-01") = some a2 ∧ a1 ≤ a2 :=
  calcularEdad_mono utcHost ⟨2024, 3, 30⟩ ⟨2024, 4, 1⟩ ⟨2010, 4, 1⟩ "2010-05-01" (by decide)
    (by decide)

/-- C28: when `handleSubmit` accepts a form (it makes the insert) whose birth
date parses, the birth year is before 2013, and on every current date, of
year `Y`, the age computed by `calcularEdad` from the submitted birth date is
at least `Y - 2013`; this holds in particular for every `Y` that is 2013 or
later, where the bound is not negative. -/
theorem accepted_minimum_age {σ : Type} (B : Backend σ) (host : Host) (s : State)
    (w : World σ) (nac hoy : JsDate)
    (hparse : host.parseDate s.formData.fechadenacimiento = some nac)
    (haccept : insertCount (handleSubmit B host s w).2.calls = insertCount w.calls + 1) :
    nac.fullYear < 2013 ∧
    ∃ a, calcularEdad host hoy (.str s.formData.fechadenacimiento) = some a ∧
      hoy.fullYear - 2013 ≤ a := by
  have hyear : nac.fullYear < 2013 := by
    rcases handleSubmit_calls_cases B host s w with h | ⟨_, _, _, hy, _⟩
    · rw [h] at haccept
      omega
    · simp only [hparse, Option.map_some', jsGe, decide_eq_false_iff_not] at hy
      omega
  refine ⟨hyear, ?_⟩
  rw [calcularEdad_eq host hoy nac _ hparse]
  refine ⟨_, rfl, ?_⟩
  split <;> omega

/-- Witness of C28: the accepted birth date 2010-05-01, asked on 2024-04-30. -/
theorem accepted_minimum_age_witness :
    ∃ a, calcularEdad utcHost ⟨2024, 3, 30⟩ (.str "2010-05-01") = some a ∧
      (2024 : Int) - 2013 ≤ a :=
  (accepted_minimum_age memStore utcHost (filledForm "Ana Pérez" "2010-05-01" "PE")
    ⟨storeU1, []⟩ ⟨2010, 4, 1⟩ ⟨2024, 3, 30⟩ (by decide) (by decide)).2

/-- Counterexample to C29: the birth date is two spaces, hence blank; the
submission does not get the missing-field message: it is inserted as it
stands. -/
theorem handleSubmit_blank_date_counterexample :
    isBlank "  " = true ∧
    (handleSubmit memStore utcHost (filledForm "Ana Pérez" "  " "PE")
        ⟨storeU1, []⟩).1.formError ≠ missingFieldMessage ∧
    (handleSubmit memStore utcHost (filledForm "Ana Pérez" "  " "PE")
        ⟨storeU1, []⟩).2.calls.take 1 =
      [Call.insertOwnerinfo ⟨"Ana Pérez", "  ", "PE", "u1"⟩] := by
  decide

/-- C29 as amended: when the name or the nationality is blank, or the birth
date is the empty string, `handleSubmit` reports the missing-field message and
calls nothing, whatever the birth date parses to; so whenever the form error
ends as the ineligibility message, the name and the nationality are not blank
and the birth date is not empty. -/
theorem handleSubmit_required_first {σ : Type} (B : Backend σ) (host : Host) (s : State)
    (w : World σ) :
    ((isBlank s.formData.nombresyapellidos = true ∨ s.formData.fechadenacimiento = "" ∨
        isBlank s.formData.nacionalidad = true) →
      handleSubmit B host s w = ({ s with formError := missingFieldMessage }, w) ∧
      (handleSubmit B host s w).1.formError ≠ ineligibleMessage) ∧
    ((handleSubmit B host s w).1.formError = ineligibleMessage →
      isBlank s.formData.nombresyapellidos = false ∧ s.formData.fechadenacimiento ≠ "" ∧
      isBlank s.formData.nacionalidad = false) := by
  have hne : missingFieldMessage ≠ ineligibleMessage := by decide
  have hmissing : (isBlank s.formData.nombresyapellidos = true ∨
      s.formData.fechadenacimiento = "" ∨ isBlank s.formData.nacionalidad = true) →
      handleSubmit B host s w = ({ s with formError := missingFieldMessage }, w) := by
    intro h
    have hcond : jsTrim s.formData.nombresyapellidos = "" ∨ s.formData.fechadenacimiento = "" ∨
        jsTrim s.formData.nacionalidad = "" := by
      rw [jsTrim_eq_empty_iff, jsTrim_eq_empty_iff]
      exact h
    simp only [handleSubmit]
    rw [if_pos hcond]
  constructor
  · intro h
    refine ⟨hmissing h, ?_⟩
    rw [hmissing h]
    exact hne
  · intro herr
    have hnot : ¬ (isBlank s.formData.nombresyapellidos = true ∨
        s.formData.fechadenacimiento = "" ∨ isBlank s.formData.nacionalidad = true) := by
      intro h
      rw [hmissing h] at herr
      exact hne herr
    refine ⟨?_, fun h => hnot (Or.inr (Or.inl h)), ?_⟩
    · cases hb : isBlank s.formData.nombresyapellidos with
      | false => rfl
      | true => exact absurd (Or.inl hb) hnot
    · cases hb : isBlank s.formData.nacionalidad with
      | false => rfl
      | true => exact absurd (Or.inr (Or.inr hb)) hnot

/-- Witness of C29 as amended: an empty birth date with the other fields
filled gives the missing-field message. -/
theorem handleSubmit_required_first_witness :
    handleSubmit memStore utcHost (filledForm "Ana Pérez" "" "PE") ⟨storeU1, []⟩ =
      ({ filledForm "Ana Pérez" "" "PE" with formError := missingFieldMessage },
       ⟨storeU1, []⟩) :=
  ((handleSubmit_required_first memStore utcHost (filledForm "Ana Pérez" "" "PE")
    ⟨storeU1, []⟩).1 (Or.inr (Or.inl rfl))).1

/-! # Statements about editing users, books and music -/

/-- `validateForm` changes nothing but the error, and nothing at all when it
returns true. -/
theorem validateForm_state (s : AdminState) :
    (∃ e, (validateForm s).2 = { s with error := e }) ∧
    ((validateForm s).1 = true → (validateForm s).2 = s) ∧
    ((validateForm s).1 = false → ∃ msg, (validateForm s).2 = { s with error := some msg }) := by
  simp only [validateForm]
  split
  · exact ⟨⟨_, rfl⟩, fun h => Bool.noConfusion h, fun _ => ⟨_, rfl⟩⟩
  · split
    · exact ⟨⟨_, rfl⟩, fun h => Bool.noConfusion h, fun _ => ⟨_, rfl⟩⟩
    · split
      · exact ⟨⟨_, rfl⟩, fun h => Bool.noConfusion h, fun _ => ⟨_, rfl⟩⟩
      · exact ⟨⟨s.error, rfl⟩, fun _ => rfl, fun h => Bool.noConfusion h⟩

/-- C22: when `validateForm` fails, `saveChanges` makes no call and changes
only the error (users, editing id and form data are as before); when
`validateForm` passes and the update answers the error `err`, `saveChanges`
has made that one update, users, editing id and form data are as before, the
error is the message of `err` and loading is false. -/
theorem saveChanges_failure {σ : Type} (B : Usuarios.UsersBackend σ) (now : String)
    (s : AdminState) (w : Usuarios.UsersWorld σ) :
    ((validateForm s).1 = false →
      (Usuarios.saveChanges B now s w).2 = w ∧
      (∃ msg, (Usuarios.saveChanges B now s w).1 = { s with error := some msg }) ∧
      (Usuarios.saveChanges B now s w).1.users = s.users ∧
      (Usuarios.saveChanges B now s w).1.editingId = s.editingId ∧
      (Usuarios.saveChanges B now s w).1.formData = s.formData) ∧
    ((validateForm s).1 = true → ∀ (err : JsError) (b1 : σ),
      B.update (Usuarios.updateValues now s.formData) s.editingId w.backend = (some err, b1) →
      Usuarios.saveChanges B now s w =
        ({ s with error := some err.message, loading := false },
         { backend := b1,
           calls := w.calls ++
             [Usuarios.UsersCall.update (Usuarios.updateValues now s.formData) s.editingId] }) ∧
      (Usuarios.saveChanges B now s w).1.users = s.users ∧
      (Usuarios.saveChanges B now s w).1.editingId = s.editingId ∧
      (Usuarios.saveChanges B now s w).1.formData = s.formData ∧
      (Usuarios.saveChanges B now s w).1.error = some err.message) := by
  constructor
  · intro hv
    obtain ⟨msg, hmsg⟩ := (validateForm_state s).2.2 hv
    have h : Usuarios.saveChanges B now s w = ({ s with error := some msg }, w) := by
      simp only [Usuarios.saveChanges]
      rw [if_pos hv, hmsg]
    rw [h]
    exact ⟨rfl, ⟨msg, rfl⟩, rfl, rfl, rfl⟩
  · intro hv err b1 hupd
    have hs := (validateForm_state s).2.1 hv
    have hnot : ¬ (validateForm s).1 = false := by
      rw [hv]
      exact fun h => Bool.noConfusion h
    have h : Usuarios.saveChanges B now s w =
        ({ s with error := some err.message, loading := false },
         { backend := b1,
           calls := w.calls ++
             [Usuarios.UsersCall.update (Usuarios.updateValues now s.formData)
               s.editingId] }) := by
      simp only [Usuarios.saveChanges]
      rw [if_neg hnot]
      simp only [Usuarios.UsersWorld.update, hupd, hs]
    rw [h]
    exact ⟨rfl, rfl, rfl, rfl, rfl⟩

/-- Witness of C22: a blank name stops `saveChanges` before any call, and a
refused update leaves the edited form in place. -/
theorem saveChanges_failure_witness :
    (Usuarios.saveChanges (Usuarios.constUsers none) "2025-06-01T00:00:00.000Z"
        (Usuarios.editingAna "  ") ⟨(), []⟩).2 = ⟨(), []⟩ ∧
    (Usuarios.saveChanges
        (Usuarios.constUsers (some { message := "permission denied", code := some "42501" }))
        "2025-06-01T00:00:00.000Z" (Usuarios.editingAna " Ana María ") ⟨(), []⟩).1.error =
      some "permission denied" :=
  ⟨((saveChanges_failure (Usuarios.constUsers none) "2025-06-01T00:00:00.000Z"
      (Usuarios.editingAna "  ") ⟨(), []⟩).1 (by decide)).1,
   ((saveChanges_failure
      (Usuarios.constUsers (some { message := "permission denied", code := some "42501" }))
      "2025-06-01T00:00:00.000Z" (Usuarios.editingAna " Ana María ") ⟨(), []⟩).2 (by decide)
      { message := "permission denied", code := some "42501" } () rfl).2.2.2.2⟩

/-- A spread over a row whose `user_id` is the editing id keeps that `user_id`
when the form belongs to the edited row. -/
theorem spread_user_id (user formData : UserRecord) (editingId : JsValue)
    (hrow : user.user_id = editingId)
    (hform : formData.user_id = .undefined ∨ formData.user_id = editingId) :
    (Usuarios.spread user formData).user_id = user.user_id := by
  simp only [Usuarios.spread, Usuarios.over]
  rcases hform with h | h
  · rw [h]
  · rw [h, ← hrow]
    cases user.user_id <;> rfl

/-- C23: in a state whose form belongs to the edited row, when `validateForm`
passes and the update succeeds, `saveChanges` ends with a users list of the
same length, in which every position holds a row with the same `user_id` as
before and every row whose `user_id` differs from the editing id is unchanged;
the editing id is null, the form data is `{}`, the error is null and loading is
false. The form belongs to the edited row in the initial state and after every
handler of the page. -/
theorem saveChanges_success {σ : Type} (B : Usuarios.UsersBackend σ) (now : String) :
    (∀ (s : AdminState) (w : Usuarios.UsersWorld σ) (b1 : σ), Usuarios.formOfEditedRow s →
      (validateForm s).1 = true →
      B.update (Usuarios.updateValues now s.formData) s.editingId w.backend = (none, b1) →
      (Usuarios.saveChanges B now s w).1.users.length = s.users.length ∧
      (∀ i : Nat, ((Usuarios.saveChanges B now s w).1.users[i]?).map (fun u => u.user_id) =
        (s.users[i]?).map (fun u => u.user_id)) ∧
      (∀ (i : Nat) (u : UserRecord), s.users[i]? = some u → u.user_id ≠ s.editingId →
        (Usuarios.saveChanges B now s w).1.users[i]? = some u) ∧
      (Usuarios.saveChanges B now s w).1.editingId = .null ∧
      (Usuarios.saveChanges B now s w).1.formData = UserRecord.empty ∧
      (Usuarios.saveChanges B now s w).1.error = none ∧
      (Usuarios.saveChanges B now s w).1.loading = false ∧
      (Usuarios.saveChanges B now s w).2.calls =
        w.calls ++
          [Usuarios.UsersCall.update (Usuarios.updateValues now s.formData) s.editingId]) ∧
    Usuarios.formOfEditedRow Usuarios.initialState ∧
    (∀ (user : UserRecord) (s : AdminState),
      Usuarios.formOfEditedRow (Usuarios.startEdit user s)) ∧
    (∀ s : AdminState, Usuarios.formOfEditedRow (Usuarios.cancelEdit s)) ∧
    (∀ (key : Usuarios.Field) (value : String) (s : AdminState), Usuarios.formOfEditedRow s →
      Usuarios.formOfEditedRow (Usuarios.handleChange key value s)) ∧
    (∀ (s : AdminState) (w : Usuarios.UsersWorld σ), Usuarios.formOfEditedRow s →
      Usuarios.formOfEditedRow (Usuarios.saveChanges B now s w).1) := by
  refine ⟨?_, Or.inl rfl, fun user s => Or.inr rfl, fun s => Or.inl rfl, ?_, ?_⟩
  · intro s w b1 hform hv hupd
    have hs := (validateForm_state s).2.1 hv
    have hnot : ¬ (validateForm s).1 = false := by
      rw [hv]
      exact fun h => Bool.noConfusion h
    have h : Usuarios.saveChanges B now s w =
        ({ s with
            users := s.users.map fun user =>
              if user.user_id = s.editingId then Usuarios.spread user s.formData else user,
            editingId := .null, formData := UserRecord.empty, error := none,
            loading := false },
         { backend := b1,
           calls := w.calls ++
             [Usuarios.UsersCall.update (Usuarios.updateValues now s.formData)
               s.editingId] }) := by
      simp only [Usuarios.saveChanges]
      rw [if_neg hnot]
      simp only [Usuarios.UsersWorld.update, hupd, hs, Usuarios.cancelEdit]
    rw [h]
    refine ⟨by simp, ?_, ?_, rfl, rfl, rfl, rfl, rfl⟩
    · intro i
      simp only [List.getElem?_map, Option.map_map]
      cases hi : s.users[i]? with
      | none => rfl
      | some u =>
        simp only [Option.map_some', Function.comp_apply]
        by_cases hu : u.user_id = s.editingId
        · rw [if_pos hu, spread_user_id u s.formData s.editingId hu hform]
        · rw [if_neg hu]
    · intro i u hi hu
      simp only [List.getElem?_map, hi, Option.map_some', if_neg hu]
  · intro key value s hform
    cases key <;> exact hform
  · intro s w hform
    simp only [Usuarios.saveChanges]
    split
    · obtain ⟨e, he⟩ := (validateForm_state s).1
      rw [he]
      exact hform
    · obtain ⟨e, he⟩ := (validateForm_state s).1
      rw [he]
      split
      · exact hform
      · exact Or.inl rfl

/-- Witness of C23: `rowAna` is edited and saved; the list keeps its two rows
with their `user_id`, `rowLuis` is untouched and editing is cleared. -/
theorem saveChanges_success_witness :
    (Usuarios.saveChanges (Usuarios.constUsers none) "2025-06-01T00:00:00.000Z"
        (Usuarios.editingAna " Ana María ") ⟨(), []⟩).1.users.length = 2 ∧
    (Usuarios.saveChanges (Usuarios.constUsers none) "2025-06-01T00:00:00.000Z"
        (Usuarios.editingAna " Ana María ") ⟨(), []⟩).1.users[1]? = some Usuarios.rowLuis ∧
    (Usuarios.saveChanges (Usuarios.constUsers none) "2025-06-01T00:00:00.000Z"
        (Usuarios.editingAna " Ana María ") ⟨(), []⟩).1.editingId = .null :=
  have h := (saveChanges_success (Usuarios.constUsers none) "2025-06-01T00:00:00.000Z").1
    (Usuarios.editingAna " Ana María ") ⟨(), []⟩ () (Or.inr rfl) (by decide) rfl
  ⟨h.1, h.2.2.1 1 Usuarios.rowLuis rfl (by decide), h.2.2.2.1⟩

/-- C24: in the books manager and in the music manager, `handleEdit(row)` sets
the editing id to the id of the row, loads every form field with the value of
the row, the empty string standing for a value that is null or missing, and
leaves the rest of the state, the loaded list included, as it was;
`handleCancelEdit` after `handleEdit` gives the editing id null and the form
with every field empty, the rest of the state being as before the edit. -/
theorem handleEdit_spec :
    (∀ v : JsValue, (∀ t, v = .str t → v.orEmpty = t) ∧
      ((v = .null ∨ v = .undefined) → v.orEmpty = "")) ∧
    (∀ (book : Libros.Book) (s : Libros.State),
      (Libros.handleEdit book s).editingId = some book.id ∧
      (Libros.handleEdit book s).form =
        { title := book.title.orEmpty, description := book.description.orEmpty,
          cover_url := book.cover_url.orEmpty, portada_url := book.portada_url.orEmpty } ∧
      (Libros.handleEdit book s).books = s.books ∧
      Libros.handleEdit book s =
        { s with editingId := (Libros.handleEdit book s).editingId,
                 form := (Libros.handleEdit book s).form } ∧
      Libros.handleCancelEdit (Libros.handleEdit book s) =
        { s with editingId := none, form := Libros.emptyForm } ∧
      (Libros.handleCancelEdit (Libros.handleEdit book s)).form =
        { title := "", description := "", cover_url := "", portada_url := "" }) ∧
    (∀ (music : Musicas.Music) (s : Musicas.State),
      (Musicas.handleEdit music s).editingId = some music.id ∧
      (Musicas.handleEdit music s).form =
        { categoria := music.categoria.orEmpty, musica_url := music.musica_url.orEmpty,
          portada_url := music.portada_url.orEmpty, titulo := music.titulo.orEmpty,
          autor := music.autor.orEmpty } ∧
      (Musicas.handleEdit music s).musics = s.musics ∧
      Musicas.handleEdit music s =
        { s with editingId := (Musicas.handleEdit music s).editingId,
                 form := (Musicas.handleEdit music s).form } ∧
      Musicas.handleCancelEdit (Musicas.handleEdit music s) =
        { s with editingId := none, form := Musicas.emptyForm } ∧
      (Musicas.handleCancelEdit (Musicas.handleEdit music s)).form =
        { categoria := "", musica_url := "", portada_url := "", titulo := "", autor := "" }) := by
  refine ⟨?_, ?_, ?_⟩
  · intro v
    constructor
    · intro t ht
      subst ht
      simp only [JsValue.orEmpty, JsValue.truthy, JsValue.text]
      by_cases h : t = ""
      · simp [h]
      · simp [h]
    · rintro (h | h) <;> subst h <;> rfl
  · intro book s
    exact ⟨rfl, rfl, rfl, rfl, rfl, rfl⟩
  · intro music s
    exact ⟨rfl, rfl, rfl, rfl, rfl, rfl⟩

/-- Witness of C24: a book whose description is null is loaded with an empty
description, and cancelling gives the empty form back. -/
theorem handleEdit_spec_witness :
    (Libros.handleEdit ⟨.num 3, .str "El Quijote", .null, .str "c.png", .undefined, .null⟩
        (Libros.sample Libros.emptyForm)).form = ⟨"El Quijote", "", "c.png", ""⟩ ∧
    Libros.handleCancelEdit
        (Libros.handleEdit ⟨.num 3, .str "El Quijote", .null, .str "c.png", .undefined, .null⟩
          (Libros.sample Libros.emptyForm)) = Libros.sample Libros.emptyForm :=
  ⟨by
    rw [(handleEdit_spec.2.1 ⟨.num 3, .str "El Quijote", .null, .str "c.png", .undefined, .null⟩
      (Libros.sample Libros.emptyForm)).2.1]
    decide,
   (handleEdit_spec.2.1 ⟨.num 3, .str "El Quijote", .null, .str "c.png", .undefined, .null⟩
      (Libros.sample Libros.emptyForm)).2.2.2.2.1⟩

end Encantia
